import Mathlib

/-!
# Verification of the trend-analysis core against its specification

This file is a shallow embedding, in Lean 4, of the algorithmic core of the
`trend-analysis-aI` repository (a Python program), together with proofs and
refutations of the specification claims about that core.

Modelling conventions, used throughout:

* Python `float` values are modelled as exact rationals (`ℚ`), except for the
  sentiment scorer whose `score ** (count * weight)` uses a non-integer
  exponent and is therefore modelled over `ℝ` with `Real.rpow`.
  Python's `round(x, n)` rounds half to even; we use Mathlib's `round`
  (half away from zero on the relevant side).  No theorem below depends on
  the behaviour at an exact tie, so the difference is immaterial.
* Python strings are Lean `String`s (sequences of Unicode code points, which
  is exactly Python's model); most computation is done on `String.data`,
  the underlying `List Char`.
* The Python `re` module is an external library.  Where a regular-expression
  operation reduces to a decidable character computation (single-character
  class matches, character-range tests, literal substring search), it is
  implemented faithfully and executably.  Where code iterates over whole
  tables of compiled patterns, the engine is abstracted as an explicit
  parameter (a record of functions), and theorems quantify over it; concrete
  instantiations used in witnesses and counterexamples agree with Python's
  `re` on every string they are actually applied to (justified in comments
  at each instantiation).
* Fallible Python code (code that can raise) is modelled in
  `Except String α`, the error string naming the Python exception class.
-/

namespace TrendAnalysis

/-! ## Generic helpers: Python string primitives -/

/-- Python's whitespace set: the characters matched by `\s` in `str` regexes
and stripped by `str.strip()` (ASCII whitespace, the C1 separators
`\x1c`–`\x1f`, NEL, NBSP, and the Unicode space characters). -/
def pyIsSpace (c : Char) : Bool :=
  c = ' ' ∨ c = '\t' ∨ c = '\n' ∨ c.toNat = 11 ∨ c.toNat = 12 ∨ c = '\r' ∨
  (28 ≤ c.toNat ∧ c.toNat ≤ 31) ∨ c.toNat = 0x85 ∨ c.toNat = 0xa0 ∨
  c.toNat = 0x1680 ∨ (0x2000 ≤ c.toNat ∧ c.toNat ≤ 0x200a) ∨
  c.toNat = 0x2028 ∨ c.toNat = 0x2029 ∨ c.toNat = 0x202f ∨
  c.toNat = 0x205f ∨ c.toNat = 0x3000

/-- `str.strip()` on the left: drop leading whitespace. -/
def stripLeft (l : List Char) : List Char := l.dropWhile pyIsSpace

/-- `str.strip()`: drop leading and trailing whitespace. -/
def pyStrip (l : List Char) : List Char :=
  ((stripLeft l).reverse.dropWhile pyIsSpace).reverse

/-- `str.strip()` lifted to `String`. -/
def pyStripStr (s : String) : String := String.mk (pyStrip s.data)

/-- ASCII lower-casing, `str.lower()` restricted to ASCII letters.  Python's
`str.lower()` additionally folds non-ASCII cased letters; every string to
which the code under verification applies `.lower()` and whose case matters
in a theorem below is ASCII or Japanese (Japanese has no case), where the two
agree. -/
def asciiLowerChar (c : Char) : Char :=
  if 'A' ≤ c ∧ c ≤ 'Z' then Char.ofNat (c.toNat + 32) else c

/-- `str.lower()` (ASCII fragment, see `asciiLowerChar`). -/
def pyLower (s : String) : String := String.mk (s.data.map asciiLowerChar)

/-- `needle in haystack` for Python strings: `l₂` occurs contiguously in
`l₁`. -/
def listContains (l₁ l₂ : List Char) : Bool :=
  match l₁ with
  | [] => l₂.isEmpty
  | _ :: t => l₂.isPrefixOf l₁ || listContains t l₂

/-- Python `sub in s` (substring containment). -/
def pyContains (s sub : String) : Bool := listContains s.data sub.data

/-- Number of non-overlapping occurrences of a non-empty literal pattern,
scanning left to right: the semantics of `len(re.findall(lit, text))` for a
literal (metacharacter-free) pattern `lit`. -/
def countOccs (pat : List Char) (text : List Char) : Nat :=
  match text with
  | [] => 0
  | c :: t =>
    if pat ≠ [] ∧ pat.isPrefixOf (c :: t) then
      1 + countOccs pat (t.drop (pat.length - 1))
    else
      countOccs pat t
termination_by text.length
decreasing_by
  · have := List.length_drop (pat.length - 1) t
    simp_all
    omega
  · simp

/-- `str.split()` with no argument: split on whitespace runs, discarding
empty fragments. -/
def pySplitWs (l : List Char) : List (List Char) :=
  match h : l.dropWhile pyIsSpace with
  | [] => []
  | c :: t =>
    let word := (c :: t).takeWhile (fun d => ¬ pyIsSpace d)
    let rest := t.dropWhile (fun d => ¬ pyIsSpace d)
    word :: pySplitWs rest
termination_by l.length
decreasing_by
  have h1 : (l.dropWhile pyIsSpace).length ≤ l.length :=
    (List.dropWhile_sublist pyIsSpace).length_le
  rw [h] at h1
  have h2 : (t.dropWhile (fun d => ¬ pyIsSpace d)).length ≤ t.length :=
    (List.dropWhile_sublist _).length_le
  simp_all
  omega

/-- Rounding to `n` decimal digits, Python's `round(x, n)` over exact
rationals (see the file header for the tie-behaviour caveat). -/
def pyRound2 (q : ℚ) : ℚ := (round (q * 100) : ℤ) / 100

/-- Python's binary `min` (kernel-reducible, unlike Mathlib's lattice
`min`): the first argument on ties, exactly as Python. -/
def pyMin (a b : ℚ) : ℚ := if a ≤ b then a else b

/-! ## Pattern-table data model

The Python pattern tables `JP_PATTERNS` (`backend/patterns/jp_patterns.py`)
and `EN_PATTERNS` (`backend/patterns/en_patterns.py`) are dicts from a
category name to a *heterogeneous* list: most entries are pattern strings,
but `ALPHA_NUM` (in the Japanese noun category) is a **compiled**
`re.Pattern` object (`backend/constants/common.py` compiles it), and the
first English verb entry is `BE_VERBS`, a **list** of strings
(`backend/constants/english.py`).  `PyPat` mirrors these three cases. -/

inductive PyPat
  /-- An entry that is a plain pattern string. -/
  | str (s : String)
  /-- An entry that is an `re.Pattern` object compiled from `src`. -/
  | compiled (src : String)
  /-- An entry that is a Python list of pattern strings. -/
  | strList (l : List String)
deriving DecidableEq

/-- Python `repr` of a string: used because several table entries are
f-strings that interpolate compiled `re.Pattern` objects, whose `str()` is
`re.compile('<source repr>')` with backslashes doubled.  (None of the
interpolated pattern sources contain quotes or non-printable characters, so
doubling backslashes is the whole escaping.) -/
def pyReprEscape (s : String) : String :=
  String.mk ((s.data.map (fun c => if c = '\\' then ['\\', '\\'] else [c])).flatten)

/-- `str(p)` for a compiled pattern `p`, i.e. `re.compile('<escaped src>')`. -/
def reprCompile (src : String) : String :=
  "re.compile(\x27" ++ pyReprEscape src ++ "\x27)"

/-- `str(l)` for a Python list of pairs of strings, e.g.
`[('う', 'う'), ('く', 'く')]`. -/
def pyReprPairList (l : List (String × String)) : String :=
  "[" ++ String.intercalate ", "
    (l.map (fun p => "(\x27" ++ p.1 ++ "\x27, \x27" ++ p.2 ++ "\x27)")) ++ "]"

/-! Constants from `backend/constants/common.py`. -/

/-- Source of the compiled `ALPHA` pattern. -/
def ALPHA_src : String := "[A-Za-zａ-ｚＡ-Ｚ]"

/-- Source of the compiled `ALPHA_NUM` pattern. -/
def ALPHA_NUM_src : String := "(?:[A-Za-zａ-ｚＡ-Ｚ]+|[0-9０-９]+)"

/-- Source of the compiled `SYMBOLS['括弧']` pattern (brackets). -/
def SYMBOLS_kakko_src : String :=
  "[「」『』（）\\[\\]｛｝\\(\\)\\\x7b\\\x7d〈〉《》【】]"

/-- Source of the compiled `SYMBOLS['句読点']` pattern (ideographic and
ASCII commas/periods). -/
def SYMBOLS_kutoten_src : String := "[、。，．,.]"

/-- Source of the compiled `SYMBOLS['感嘆符']` pattern. -/
def SYMBOLS_kantanfu_src : String := "[！!？?‼⁉]"

/-- Source of the compiled `SYMBOLS['その他']` pattern. -/
def SYMBOLS_sonota_src : String := "[…―:：;；・~～=＝]"

/-! Constants from `backend/constants/japanese.py`. -/

/-- `JAPANESE_CHARS` character class. -/
def JAPANESE_CHARS : String := "[ぁ-んァ-ン一-龯]"

/-- `KANJI_CHARS` character class. -/
def KANJI_CHARS : String := "[一-龯]"

/-- `HIRAGANA` extended pattern. -/
def HIRAGANA : String := "[ぁ-んー・゛゜]+"

/-- `KATAKANA` extended pattern. -/
def KATAKANA : String := "[ァ-ンー・゛゜]+"

/-- `KANJI` extended pattern. -/
def KANJI : String := "[一-龯々〆ヶ]+"

/-- `VERB_STEM_ENDINGS`: a list of pairs (NOT a pattern string; where the
code interpolates it into an rf-string, the list's `repr` is interpolated). -/
def VERB_STEM_ENDINGS : List (String × String) :=
  [("う", "う"), ("く", "く"), ("ぐ", "ぐ"), ("す", "す"), ("つ", "つ"),
   ("ぬ", "ぬ"), ("ぶ", "ぶ"), ("む", "む"), ("る", "る")]

/-- `VERB_CONJUGATION` pattern fragment. -/
def VERB_CONJUGATION : String :=
  "(?:ない|ます|ました|まして|ません|ませんでした|" ++
  "たい|たく|たかった|られる|られた|させる|させた|" ++
  "そうだ|そうです|たがる|てある|ている|ておく|てしまう)"

/-- `ADJ_CONJUGATION` pattern fragment. -/
def ADJ_CONJUGATION : String :=
  "(?:い|く|かった|くて|くない|かったです|" ++
  "くありません|くありませんでした|" ++
  "そうだ|そうです|がる|めだ|すぎる)"

/-- `BASIC_PARTICLES` character class. -/
def BASIC_PARTICLES : String := "[はがをのにへとでもや]"

/-- `JP_PATTERNS` from `backend/patterns/jp_patterns.py`: the merged dict
`{**INDEPENDENT_WORDS, **DEPENDENT_WORDS, **SPECIAL, **SYMBOLS}` in its
Python insertion order.  The `記号` entries are f-strings interpolating the
four compiled `SYMBOLS` patterns of `backend/constants/common.py` (hence
`reprCompile`), and `SYMBOLS.get('矢印', '')` / `SYMBOLS.get('数学記号', '')`
are missing keys, so those two entries are the literal string `"[]"`. -/
def JP_PATTERNS : List (String × List PyPat) :=
  [("名詞",
    [.str KANJI,
     .str HIRAGANA,
     .str KATAKANA,
     .compiled ALPHA_NUM_src,
     .str (KANJI_CHARS ++ JAPANESE_CHARS ++ "+"),
     .str "\\d+(?:[年月日個円人回台分秒階]|[かが]?月|[かこ]?日)",
     .str ("(?:" ++ KANJI_CHARS ++ "|" ++ JAPANESE_CHARS ++
       ")+(?:性|化|法|式|的|論|学|者|家|場|室|所|品)")]),
   ("動詞",
    [.str (JAPANESE_CHARS ++ "+" ++ pyReprPairList VERB_STEM_ENDINGS ++ "\\b"),
     .str (JAPANESE_CHARS ++ "+" ++ VERB_CONJUGATION ++ "\\b"),
     .str ("(?:" ++ JAPANESE_CHARS ++
       "+)?(?:する|される|した|された|している|されている|しよう|されよう)\\b"),
     .str "(?:来|き|く|こ)(?:る|れる|られる|よう|ない|させる)\\b",
     .str (JAPANESE_CHARS ++ "+(?:える|られる)\\b")]),
   ("形容詞",
    [.str (JAPANESE_CHARS ++ "+" ++ ADJ_CONJUGATION ++ "\\b"),
     .str (JAPANESE_CHARS ++ "+(?:な|に|だ|で|です|でした|だった|だろう)\\b"),
     .str (JAPANESE_CHARS ++ "+たる\\b")]),
   ("副詞",
    [.str ("(?:" ++
       "とても|非常に|かなり|少し|ちょっと|" ++
       "全く|まったく|特に|既に|直ぐに|" ++
       "すぐに|最も|もっと|どう|そう|" ++
       "ああ|こう|やはり|確か|多分|" ++
       "恐らく|きっと|必ず|絶対に|" ++
       "徐々に|次第に|段々|急に|突然|" ++
       "実に|本当に|正に|大変|相当" ++
       ")\\b"),
     .str (JAPANESE_CHARS ++ "+(?:く|に)\\b"),
     .str "(?:[あ-ん]\x7b2\x7d)+(?:り|と)?\\b"]),
   ("助詞",
    [.str ("(?:" ++
       "が|の|を|に|へ|と|から|より|で|" ++
       "による|において|について|として|" ++
       "ながら|つつ|にて|をもって|において|" ++
       "によって|に関して|に対して|を通じて" ++
       ")\\b"),
     .str ("(?:" ++
       "ば|たら|なら|ても|のに|から|" ++
       "ので|けれども|けど|し|て|" ++
       "ものの|ところ|ところで|とともに|" ++
       "ものの|にもかかわらず|ために" ++
       ")\\b"),
     .str ("(?:" ++
       "は|も|こそ|さえ|でも|しか|" ++
       "まで|ばかり|だけ|ほど|くらい|" ++
       "など|なんか|かな|よ|ね|" ++
       "やら|なり|かしら|っけ|わ|ぞ|ぜ" ++
       ")\\b"),
     .str "(?:や|か|なり|だの|とか)\\b"]),
   ("助動詞",
    [.str "(?:れる|られる|せる|させる|れた|られた|せた|させた|させられる)\\b",
     .str "(?:ない|ぬ|ん|まい|なかった|ません|ませんでした)\\b",
     .str "(?:です|ます|でした|ました|でしょう|ましょう|ください|いただく|なさる)\\b",
     .str "(?:そうだ|ようだ|らしい|かもしれない|にちがいない|はずだ|べきだ|ことができる)\\b",
     .str "(?:ている|てある|ておく|てしまう|ていく|てくる)\\b"]),
   ("接続詞",
    [.str ("(?:" ++
       "しかし|けれども|ただし|また|" ++
       "および|そして|それに|それから|" ++
       "したがって|それでは|すなわち|" ++
       "つまり|例えば|ところで|では|" ++
       "ところが|だから|そのため|" ++
       "ならびに|あるいは|もしくは|" ++
       "なお|ただ|但し|さらに|" ++
       "というのは|なぜなら|要するに" ++
       ")\\b")]),
   ("感動詞",
    [.str ("(?:" ++
       "あ|あっ|ああ|うん|えっ|おお|" ++
       "おっ|わあ|はい|いいえ|さあ|" ++
       "よし|よしよし|ええ|あら|まあ|" ++
       "へえ|ふむ|なるほど|おや|" ++
       "やあ|いやいや|おっと|わっ|" ++
       "ありがとう|すみません|失礼|" ++
       "ごめん|おめでとう|さようなら" ++
       ")\\b")]),
   ("連体詞",
    [.str ("(?:" ++
       "この|その|あの|どの|" ++
       "いわゆる|例の|大きな|小さな|" ++
       "ある|いろんな|そんな|こんな|" ++
       "あんな|どんな|たいした" ++
       ")\\b")]),
   ("記号",
    [.str ("[" ++ reprCompile SYMBOLS_kakko_src ++ reprCompile SYMBOLS_kutoten_src ++
       reprCompile SYMBOLS_kantanfu_src ++ reprCompile SYMBOLS_sonota_src ++ "]"),
     .str "[]",
     .str "[]"])]

/-! Constants from `backend/constants/english.py`. -/

/-- `BE_VERBS`: a Python list with one pattern string. -/
def BE_VERBS : List String := ["\\b(?:is|am|are|was|were|be|been|being)\\b"]

/-- `COMMON_VERBS` pattern. -/
def COMMON_VERBS : String :=
  "\\b(?:have|has|had|do|does|did|" ++
  "make|made|take|took|get|got|go|went|come|came|" ++
  "say|said|think|thought|know|knew|see|saw|" ++
  "want|wanted|use|used|find|found|tell|told|" ++
  "ask|asked|work|worked|seem|seemed|feel|felt|" ++
  "try|tried|leave|left|call|called|" ++
  "love|loved|loves|loving)\\b"

/-- `VERB_ENDINGS` pattern fragment. -/
def VERB_ENDINGS : String := "(?:ed|ing|s|es|en)\\b"

/-- `ADJECTIVE_ENDINGS` pattern fragment. -/
def ADJECTIVE_ENDINGS : String :=
  "(?:ful|less|ous|ive|able|ible|al|ical|ic|ish|like|ly|y|ent|ant)\\b"

/-- `NOUN_ENDINGS` pattern fragment. -/
def NOUN_ENDINGS : String :=
  "(?:tion|sion|ment|ness|ity|ance|ence|ship|hood|dom|er|or|ist|" ++
  "age|ure|ary|ery|ry|cy|graphy|logy|ics)\\b"

/-- `EN_PATTERNS` from `backend/patterns/en_patterns.py`: the merged dict
`{**INDEPENDENT_WORDS, **FUNCTION_WORDS, **SYMBOLS}` in Python insertion
order.  The first two noun entries and the first punctuation entry are
f-strings interpolating compiled patterns (hence `reprCompile`), and the
first verb entry is the *list* `BE_VERBS`. -/
def EN_PATTERNS : List (String × List PyPat) :=
  [("noun",
    [.str ("\\b[A-Z]" ++ reprCompile ALPHA_src ++ "[a-z]+\\b"),
     .str ("\\b" ++ reprCompile ALPHA_src ++ "[a-z]+[-\\s]" ++
       reprCompile ALPHA_src ++ "[a-z]+\\b"),
     .str ("\\b[a-z]+" ++ NOUN_ENDINGS),
     .str ("\\b(?:" ++
       "data|system|user|time|way|day|year|" ++
       "people|man|woman|child|world|life|work|" ++
       "part|place|case|group|company|number|" ++
       "problem|fact|thing|name|area|family|" ++
       "question|study|business|issue|point|" ++
       "government|money|service|information" ++
       ")\\b")]),
   ("verb",
    [.strList BE_VERBS,
     .str COMMON_VERBS,
     .str ("\\b[a-z]+" ++ VERB_ENDINGS),
     .str "\\b(?:look|come|go|put|take|get|make|set)\\s+(?:up|down|in|out|off|on|away|back)\\b"]),
   ("adjective",
    [.str ("\\b[a-z]+" ++ ADJECTIVE_ENDINGS),
     .str "\\b[a-z]+[-][a-z]+(?:ed|ing)\\b",
     .str ("\\b(?:" ++
       "good|bad|big|small|high|low|" ++
       "new|old|great|important|different|" ++
       "same|right|wrong|true|false|" ++
       "happy|sad|beautiful|difficult|" ++
       "easy|hard|possible|impossible|" ++
       "long|short|young|strong|weak|" ++
       "early|late|full|empty|rich|poor|" ++
       "hot|cold|warm|cool|clean|dirty" ++
       ")\\b")]),
   ("adverb",
    [.str "\\b[a-z]+ly\\b",
     .str "\\b(?:extremely|incredibly|absolutely|completely|totally)\\b",
     .str ("\\b(?:" ++
       "very|really|quite|rather|too|" ++
       "also|just|only|even|still|" ++
       "again|already|often|always|" ++
       "never|ever|sometimes|usually|" ++
       "perhaps|maybe|now|then|here|" ++
       "there|today|tomorrow|yesterday|" ++
       "well|quickly|slowly|carefully|" ++
       "together|apart|anyway|somehow" ++
       ")\\b")]),
   ("preposition",
    [.str ("\\b(?:" ++
       "in|on|at|to|for|of|with|by|" ++
       "from|about|into|through|after|" ++
       "over|between|out|against|during|" ++
       "without|before|under|around|among|" ++
       "across|behind|beyond|within|throughout|" ++
       "despite|except|like|near|opposite" ++
       ")\\b")]),
   ("article",
    [.str "\\b(?:a|an|the)\\b"]),
   ("pronoun",
    [.str ("\\b(?:" ++
       "I|you|he|she|it|we|they|" ++
       "me|him|her|us|them|" ++
       "my|your|his|its|our|their|" ++
       "mine|yours|hers|ours|theirs" ++
       ")\\b"),
     .str "\\b(?:this|that|these|those)\\b",
     .str "\\b(?:who|whom|whose|which|what)\\b",
     .str "\\b(?:all|any|both|each|every|few|many|none|some|several)\\b"]),
   ("conjunction",
    [.str ("\\b(?:" ++
       "and|or|but|so|because|if|when|while|" ++
       "although|unless|since|as|than|whether" ++
       ")\\b")]),
   ("punctuation",
    [.str ("[" ++ reprCompile SYMBOLS_kutoten_src ++
       reprCompile SYMBOLS_kantanfu_src ++ reprCompile SYMBOLS_sonota_src ++ "]"),
     .str "[\x27\x27\x27\x27]+",
     .str "[-–—]+"])]

/-! ## ScoringCalculator (`backend/services/trend/scoring/calculator.py`)

The `re` module is abstracted by the record `Re`: `compiles s` tells whether
`re.compile(s, re.I)` succeeds on a pattern *string* `s`, and `search s kw`
is `bool(re.compile(s, re.I).search(kw))`.  All calculator theorems below
quantify over `Re`, so they hold in particular for Python's engine. -/

structure Re where
  compiles : String → Bool
  search : String → String → Bool

/-- The compiled-regex cache `self._compile_regex_cache`, modelled by its key
set (the cached compiled values never influence control flow beyond the
`search` outcome, which `Re.search` supplies).  A fresh `ScoringCalculator`
starts with the empty cache. -/
abbrev Cache := List PyPat

/-- `self.importance_weights` from `TrendScoring.__init__`
(`backend/services/trend/scoring/trend_scoring.py`). -/
def importance_weights : List (String × ℚ) :=
  [("名詞", 1.0), ("複合名詞", 1.3), ("造語", 1.5), ("ハッシュタグ", 1.4),
   ("noun", 1.0), ("compound", 1.3), ("neologism", 1.5), ("hashtag", 1.4)]

/-- `self.trend_indicators` from `TrendScoring.__init__`.  Python iterates a
`set` in an unspecified order; the bonus computed from it is a sum of
independent per-indicator contributions, so the order is immaterial, and we
fix the literal order. -/
def trend_indicators : List String :=
  ["話題", "注目", "人気", "流行", "急上昇", "最新", "新機能",
   "trend", "viral", "popular", "new", "breaking", "latest", "hot", "buzz",
   "trending"]

/-- One iteration of the inner loop of `check_patterns` in
`_calculate_keyword_importance`, on one table entry `p`:

```
if pattern not in self._compile_regex_cache:
    self._compile_regex_cache[pattern] = re.compile(pattern, re.I)
if self._compile_regex_cache[pattern].search(keyword):
    weight = self.importance_weights[pattern_type]
    max_weight = max(max_weight, weight)
```

* a `strList` entry is a Python `list`, which is unhashable, so the very
  membership test `pattern not in cache` raises `TypeError`;
* a `compiled` entry not in the cache reaches
  `re.compile(compiled_pattern, re.I)`, which raises
  `ValueError: cannot process flags argument with a compiled pattern`;
* a `str` entry is compiled (which may raise `re.error` for a malformed
  pattern) and cached; on a search hit, the weight lookup raises `KeyError`
  when the category is missing from `importance_weights`. -/
def checkPatStep (re : Re) (weights : List (String × ℚ)) (catName : String)
    (kw : String) (st : Cache × ℚ) (p : PyPat) : Except String (Cache × ℚ) :=
  match p with
  | .strList _ => .error "TypeError"
  | .compiled src =>
    if p ∈ st.1 then
      if re.search src kw then
        match weights.lookup catName with
        | some w => .ok (st.1, max st.2 w)
        | none => .error "KeyError"
      else .ok st
    else .error "ValueError"
  | .str s =>
    let cache : Cache := if p ∈ st.1 then st.1 else p :: st.1
    if p ∉ st.1 ∧ ¬ re.compiles s then .error "re.error"
    else if re.search s kw then
      match weights.lookup catName with
      | some w => .ok (cache, max st.2 w)
      | none => .error "KeyError"
    else .ok (cache, st.2)

/-- The pattern loop of `check_patterns` over one category's entry list. -/
def runPats (re : Re) (weights : List (String × ℚ)) (catName : String)
    (kw : String) : List PyPat → Cache × ℚ → Except String (Cache × ℚ)
  | [], st => .ok st
  | p :: ps, st =>
    match checkPatStep re weights catName kw st p with
    | .error e => .error e
    | .ok st' => runPats re weights catName kw ps st'

/-- The category loop of `check_patterns` over a whole pattern table. -/
def runCats (re : Re) (weights : List (String × ℚ)) (kw : String) :
    List (String × List PyPat) → Cache × ℚ → Except String (Cache × ℚ)
  | [], st => .ok st
  | (catName, ps) :: cs, st =>
    match runPats re weights catName kw ps st with
    | .error e => .error e
    | .ok st' => runCats re weights kw cs st'

/-- `ScoringCalculator._calculate_keyword_importance`: lower-case the
keyword, run `check_patterns` over the Japanese then the English table
starting from `max_weight = 1.0` and a fresh empty cache, and return the
final `max_weight`. -/
def _calculate_keyword_importance (re : Re) (weights : List (String × ℚ))
    (keyword : String) (jp en : List (String × List PyPat)) :
    Except String ℚ :=
  let kw := pyLower keyword
  match runCats re weights kw jp ([], 1) with
  | .error e => .error e
  | .ok st =>
    match runCats re weights kw en st with
    | .error e => .error e
    | .ok st' => .ok st'.2

/-- `ScoringCalculator._calculate_time_weight`. -/
def _calculate_time_weight (hours_old : ℚ) : ℚ :=
  if hours_old ≤ 0.5 then 1.5
  else if hours_old ≤ 1 then 1.2
  else if hours_old ≤ 3 then 1.0
  else if hours_old ≤ 6 then 0.9
  else if hours_old ≤ 12 then 0.7
  else if hours_old ≤ 24 then 0.5
  else 0.3

/-- Digit test for `re.search(r"\d+", keyword)`.  Python's `\d` is the
Unicode `Nd` category; ASCII and full-width digits are the only members that
occur in any input below, and no theorem depends on the exotic remainder. -/
def pyIsDigit (c : Char) : Bool :=
  ('0' ≤ c ∧ c ≤ '9') ∨ (0xFF10 ≤ c.toNat ∧ c.toNat ≤ 0xFF19)

/-- `ScoringCalculator._evaluate_trend_indicators`: additive bonus, clamped
to at most 1.0.  `re.search(r"[!?！？]+", kw)` holds iff some character of
`kw` is one of the four marks, and `re.search(r"(速報|breaking|urgent)", kw)`
iff one of the three literals occurs as a substring. -/
def _evaluate_trend_indicators (indicators : List String) (keyword : String) : ℚ :=
  let kwLower := pyLower keyword
  let bonus : ℚ := indicators.foldl (fun b ind =>
    if pyContains kwLower ind then b + 0.2
    else if (pySplitWs ind.data).any (fun part => listContains kwLower.data part) then
      b + 0.1
    else b) 0
  let bonus := if pyContains keyword "#" then bonus + 0.3 else bonus
  let bonus := if pyContains keyword "@" then bonus + 0.2 else bonus
  let bonus := if keyword.data.any pyIsDigit then bonus + 0.1 else bonus
  let bonus := if keyword.length ≤ 10 then bonus + 0.1 else bonus
  let bonus := if keyword.data.any
      (fun c => c = '!' ∨ c = '?' ∨ c = '！' ∨ c = '？') then bonus + 0.15
    else bonus
  let bonus := if pyContains kwLower "速報" ∨ pyContains kwLower "breaking" ∨
      pyContains kwLower "urgent" then bonus + 0.25
    else bonus
  pyMin bonus 1

/-- `ScoringCalculator.calculate_popularity_score`.  `count : ℕ` (the claims
quantify over non-negative counts); `len(str(count))` is the decimal digit
count.  The importance computation can raise, which propagates to the
caller, so the result lives in `Except`. -/
def calculate_popularity_score (re : Re) (weights : List (String × ℚ))
    (indicators : List String) (count : ℕ) (hours_old : ℚ) (keyword : String)
    (jp en : List (String × List PyPat)) : Except String ℚ :=
  if keyword = "" ∨ hours_old < 0 then .ok 0
  else
    let base_score : ℚ := count * 10 * (1 + 0.1 * (toString count).length)
    let time_weight := _calculate_time_weight hours_old
    match _calculate_keyword_importance re weights keyword jp en with
    | .error e => .error e
    | .ok importance_weight =>
      let trend_bonus := _evaluate_trend_indicators indicators keyword
      let raw_score := base_score * time_weight * importance_weight * (1 + trend_bonus)
      .ok (pyRound2 (pyMin raw_score 10000))

/-- Error discriminator for `Except`. -/
def isErr {α : Type} : Except String α → Bool
  | .error _ => true
  | .ok _ => false

/-- A trivial concrete regex engine (every pattern compiles, nothing ever
matches), used to instantiate `Re`-quantified theorems in witnesses. -/
def reNoMatch : Re := ⟨fun _ => true, fun _ _ => false⟩

/-! ## TextNormalizer: `preprocess_text` (`backend/patterns/tokenizer.py`) -/

/-- Helper for `wsCollapse`: `inRun` records that the current whitespace run
has already emitted its replacement space. -/
def wsCollapseAux (inRun : Bool) : List Char → List Char
  | [] => []
  | c :: rest =>
    if pyIsSpace c then
      if inRun then wsCollapseAux true rest
      else ' ' :: wsCollapseAux true rest
    else c :: wsCollapseAux false rest

/-- `re.sub(r"\s+", " ", l)`: every maximal whitespace run becomes one ASCII
space. -/
def wsCollapse (l : List Char) : List Char := wsCollapseAux false l

/-- First `str.maketrans` table of `preprocess_text`: the 62 pairs mapping
full-width alphanumerics (`０-９`, `Ａ-Ｚ`, `ａ-ｚ`) to their half-width
counterparts, transcribed pair by pair from the two argument strings. -/
def tr1Pairs : List (Char × Char) :=
  [('０', '0'), ('１', '1'), ('２', '2'), ('３', '3'), ('４', '4'),
   ('５', '5'), ('６', '6'), ('７', '7'), ('８', '8'), ('９', '9'),
   ('Ａ', 'A'), ('Ｂ', 'B'), ('Ｃ', 'C'), ('Ｄ', 'D'), ('Ｅ', 'E'),
   ('Ｆ', 'F'), ('Ｇ', 'G'), ('Ｈ', 'H'), ('Ｉ', 'I'), ('Ｊ', 'J'),
   ('Ｋ', 'K'), ('Ｌ', 'L'), ('Ｍ', 'M'), ('Ｎ', 'N'), ('Ｏ', 'O'),
   ('Ｐ', 'P'), ('Ｑ', 'Q'), ('Ｒ', 'R'), ('Ｓ', 'S'), ('Ｔ', 'T'),
   ('Ｕ', 'U'), ('Ｖ', 'V'), ('Ｗ', 'W'), ('Ｘ', 'X'), ('Ｙ', 'Y'),
   ('Ｚ', 'Z'),
   ('ａ', 'a'), ('ｂ', 'b'), ('ｃ', 'c'), ('ｄ', 'd'), ('ｅ', 'e'),
   ('ｆ', 'f'), ('ｇ', 'g'), ('ｈ', 'h'), ('ｉ', 'i'), ('ｊ', 'j'),
   ('ｋ', 'k'), ('ｌ', 'l'), ('ｍ', 'm'), ('ｎ', 'n'), ('ｏ', 'o'),
   ('ｐ', 'p'), ('ｑ', 'q'), ('ｒ', 'r'), ('ｓ', 's'), ('ｔ', 't'),
   ('ｕ', 'u'), ('ｖ', 'v'), ('ｗ', 'w'), ('ｘ', 'x'), ('ｙ', 'y'),
   ('ｚ', 'z')]

/-- `str.translate` with the first table: a character listed as a key is
replaced by its value, every other character is unchanged. -/
def tr1Char (c : Char) : Char := (tr1Pairs.lookup c).getD c

/-- Second `str.maketrans` table of `preprocess_text`:
`str.maketrans("：；？！（）［］｛｝＜＞、，", ":;?!()[]{}<>,,")`,
transcribed pair by pair. -/
def tr2Pairs : List (Char × Char) :=
  [('：', ':'), ('；', ';'), ('？', '?'), ('！', '!'),
   ('（', '('), ('）', ')'), ('［', '['), ('］', ']'),
   ('｛', Char.ofNat 0x7b), ('｝', Char.ofNat 0x7d),
   ('＜', '<'), ('＞', '>'), ('、', ','), ('，', ',')]

/-- `str.translate` with the second table. -/
def tr2Char (c : Char) : Char := (tr2Pairs.lookup c).getD c

/-- `l` has no two adjacent members of the class `p`: the condition under
which `re.sub(r"[X]{2,}", ...)` run collapsing (and, for `p` the whitespace
class, `re.sub(r"\s+", " ")` on an already space-normalised string) finds
nothing to replace. -/
def noDouble (p : Char → Bool) : List Char → Bool
  | a :: b :: t => (!(p a && p b)) && noDouble p (b :: t)
  | _ => true

/-- The characters removed by `re.sub(r"[\x00-\x1F\x7F-\x9F]", "", ...)`. -/
def isCtrl (c : Char) : Bool :=
  c.toNat ≤ 0x1F ∨ (0x7F ≤ c.toNat ∧ c.toNat ≤ 0x9F)

/-- The class `[。．.]` of sentence-terminal marks. -/
def isPeriodMark (c : Char) : Bool := c = '。' ∨ c = '．' ∨ c = '.'

/-- The class `[、，,]` of comma marks. -/
def isCommaMark (c : Char) : Bool := c = '、' ∨ c = '，' ∨ c = ','

/-- Helper for `collapseRuns`: `inRun` records that the current run of class
members has already emitted its replacement character. -/
def collapseRunsAux (p : Char → Bool) (r : Char) (inRun : Bool) :
    List Char → List Char
  | [] => []
  | c :: rest =>
    if p c then
      if inRun then collapseRunsAux p r true rest
      else if (rest.head?.map p).getD false then
        r :: collapseRunsAux p r true rest
      else c :: collapseRunsAux p r false rest
    else c :: collapseRunsAux p r false rest

/-- `re.sub(r"[X]{2,}", r, l)` for a character class `X`: every maximal run
of two or more class members becomes the single character `r`; lone members
are untouched. -/
def collapseRuns (p : Char → Bool) (r : Char) (l : List Char) : List Char :=
  collapseRunsAux p r false l

/-- `preprocess_text` (the spec's `normalize`): whitespace collapse on the
stripped input, two `translate` tables, control-character removal, terminal
and comma run collapsing, final strip. -/
def preprocess_text (text : String) : String :=
  if text = "" then ""
  else
    let t1 := wsCollapse (pyStrip text.data)
    let t2 := t1.map tr1Char
    let t3 := t2.map tr2Char
    let t4 := t3.filter (fun c => ¬ isCtrl c)
    let t5 := collapseRuns isPeriodMark '。' t4
    let t6 := collapseRuns isCommaMark '、' t5
    String.mk (pyStrip t6)

/-! ## Tokenizer: `tokenize_sentence` (`backend/patterns/tokenizer.py`) -/

/-- `re.match(JAPANESE_CHARS, c)` on a single character: membership in the
class `[ぁ-んァ-ン一-龯]` (`ぁ` U+3041 – `ん` U+3093, `ァ` U+30A1 – `ン`
U+30F3, `一` U+4E00 – `龯` U+9FAF). -/
def jpChar (c : Char) : Bool :=
  (0x3041 ≤ c.toNat ∧ c.toNat ≤ 0x3093) ∨
  (0x30A1 ≤ c.toNat ∧ c.toNat ≤ 0x30F3) ∨
  (0x4E00 ≤ c.toNat ∧ c.toNat ≤ 0x9FAF)

/-- `str.isascii()` on a single character. -/
def isAsciiChar (c : Char) : Bool := c.toNat ≤ 127

/-- ASCII letter. -/
def isAsciiAlphaChar (c : Char) : Bool :=
  ('a' ≤ c ∧ c ≤ 'z') ∨ ('A' ≤ c ∧ c ≤ 'Z')

/-- The `Language` enum of `backend/patterns/tokenizer.py`. -/
inductive Language
  | JAPANESE
  | ENGLISH
  | UNKNOWN
deriving DecidableEq

/-- The `Token` dataclass of `backend/patterns/tokenizer.py`.  `features` is
an association list standing for the Python dict (string keys, insertion
order). -/
structure Token where
  text : String
  pos : String
  language : Language
  is_compound : Bool := false
  original_form : Option String := none
  features : List (String × String) := []
deriving DecidableEq

/-- `_create_token`: language detection by `re.search(JAPANESE_CHARS, ·)`
then `str.isascii`, and the crude POS heuristics.  `re.match(r"[はがをのにへとでもや]", t)`
holds iff the first character is in the class, `re.match(r"[あ-ん]+", t)` iff
the first character is in `あ` U+3042 – `ん` U+3093; `t.isalpha()` on an
all-ASCII string means non-empty and all ASCII letters. -/
def _create_token (text : String) : Token :=
  if text.data.any jpChar then
    let pos :=
      if (text.data.head?.map
          (fun c => ['は', 'が', 'を', 'の', 'に', 'へ', 'と', 'で', 'も', 'や'].contains c)).getD false then
        "助詞"
      else if (text.data.head?.map
          (fun c => decide (0x3042 ≤ c.toNat ∧ c.toNat ≤ 0x3093))).getD false then
        "動詞"
      else "名詞"
    { text := text, pos := pos, language := .JAPANESE,
      is_compound := false, original_form := none, features := [] }
  else if text.data.all isAsciiChar then
    let pos :=
      if pyLower text = "a" ∨ pyLower text = "an" ∨ pyLower text = "the" then "article"
      else if text ≠ "" ∧ text.data.all isAsciiAlphaChar then "word"
      else "symbol"
    { text := text, pos := pos, language := .ENGLISH,
      is_compound := false, original_form := none, features := [] }
  else
    { text := text, pos := "unknown", language := .UNKNOWN,
      is_compound := false, original_form := none, features := [] }

/-- The three character classes of the `tokenize_sentence` loop. -/
inductive CharKind
  | jp
  | en
  | other
deriving DecidableEq

/-- The separators flushed by the first branch of `tokenize_sentence`. -/
def tokSeps : List Char := ['、', '，', ',', '。', '．', '.']

/-- The character loop of `tokenize_sentence`, with its three pieces of
state: remaining input, `current_word`, `current_type`, and the accumulated
`tokens` (appended at the back, as the Python list is). -/
def tokLoop : List Char → String → Option CharKind → List Token → List Token
  | [], cur, _, toks => if cur ≠ "" then toks ++ [_create_token cur] else toks
  | c :: rest, cur, ctype, toks =>
    if c ∈ tokSeps then
      tokLoop rest "" none (if cur ≠ "" then toks ++ [_create_token cur] else toks)
    else if pyIsSpace c then
      tokLoop rest "" none (if cur ≠ "" then toks ++ [_create_token cur] else toks)
    else
      let ck : CharKind := if jpChar c then .jp else if isAsciiChar c then .en else .other
      if ctype ≠ some ck ∨ ck = .jp then
        tokLoop rest (String.mk [c]) (some ck)
          (if cur ≠ "" then toks ++ [_create_token cur] else toks)
      else
        tokLoop rest (cur.push c) (some ck) toks

/-- `tokenize_sentence`. -/
def tokenize_sentence (sentence : String) : List Token :=
  tokLoop sentence.data "" none []

/-! ## SentenceSplitter: `split_sentences` and `_is_balanced`
(`backend/patterns/tokenizer.py`)

The two `re.split` calls (the sentence-boundary pattern with its
lookbehinds/lookahead, and the list-marker pattern) are regular-expression
library calls; they are abstracted as functions `f g : String → List String`
over which the theorems quantify, so that every theorem holds in particular
for Python's `re.split`. -/

/-- The `pairs` dict of `_is_balanced`. -/
def bracketPairs : List (Char × Char) :=
  [('「', '」'), ('『', '』'), ('(', ')'), ('（', '）'), ('[', ']'),
   ('［', '］'), (Char.ofNat 0x7b, Char.ofNat 0x7d), ('｛', '｝'),
   ('＜', '＞'), ('<', '>')]

/-- `char in pairs` (membership in the dict's keys: an opening bracket). -/
def isOpening (c : Char) : Bool := (bracketPairs.map Prod.fst).contains c

/-- `char in pairs.values()` (a closing bracket). -/
def isClosing (c : Char) : Bool := (bracketPairs.map Prod.snd).contains c

/-- The scanning loop of `_is_balanced` over text, bracket stack, and the
`escaped` flag.  As in the code, a backslash always sets `escaped` (even
when itself escaped), and any other character seen with `escaped` set is
skipped. -/
def balLoop : List Char → List Char → Bool → Bool
  | [], stack, _ => stack.isEmpty
  | c :: rest, stack, escaped =>
    if c = '\\' then balLoop rest stack true
    else if escaped then balLoop rest stack false
    else if isOpening c then balLoop rest (c :: stack) false
    else if isClosing c then
      match stack with
      | [] => false
      | top :: stack' =>
        if bracketPairs.lookup top = some c then balLoop rest stack' false
        else false
    else balLoop rest stack false

/-- `_is_balanced`. -/
def _is_balanced (text : String) : Bool := balLoop text.data [] false

/-- Appending one fragment to the running buffer and flushing it when
balanced (the shared body of both branches of the accumulation loop of
`split_sentences`). -/
def processFrag (st : List String × String) (frag : String) : List String × String :=
  let current := st.2 ++ frag
  if _is_balanced current then (st.1 ++ [pyStripStr current], "") else (st.1, current)

/-- The outer accumulation loop of `split_sentences` over the raw fragments:
a fragment that the list-marker split `g` cuts into more than one item is
consumed item-by-item (skipping items that strip to empty), otherwise it is
consumed whole. -/
def splitLoop (g : String → List String) :
    List String → List String × String → List String × String
  | [], st => st
  | s :: raws, st =>
    let items := g s
    let st' :=
      if items.length > 1 then
        items.foldl
          (fun acc item => if pyStripStr item ≠ "" then processFrag acc item else acc) st
      else processFrag st s
    splitLoop g raws st'

/-- `split_sentences`, parameterised by the two `re.split` functions `f`
(sentence-boundary split) and `g` (list-marker split). -/
def split_sentences (f g : String → List String) (text : String) : List String :=
  let st := splitLoop g (f text) ([], "")
  let sentences := if st.2 ≠ "" then st.1 ++ [pyStripStr st.2] else st.1
  sentences.filter (fun s => s ≠ "")

/-! ## SentimentScorer: `analyze_sentiment` (`backend/patterns/sentiment.py`) -/

/-- The `SentimentPattern` dataclass. -/
structure SentimentPattern where
  word : String
  score : ℚ
  weight : ℚ := 1.0

/-- `SENTIMENT_PATTERNS`.  Note the configured weight of the `最高` rule is
`1.2`, not the default `1.0`. -/
def SENTIMENT_PATTERNS : List SentimentPattern :=
  [⟨"ポジティブ", 1.2, 1.0⟩,
   ⟨"最高", 1.5, 1.2⟩,
   ⟨"素晴らしい", 1.4, 1.0⟩,
   ⟨"良い", 1.1, 1.0⟩,
   ⟨"好き", 1.2, 1.0⟩,
   ⟨"嬉しい", 1.3, 1.0⟩,
   ⟨"楽しい", 1.3, 1.0⟩,
   ⟨"ネガティブ", 0.7, 1.0⟩,
   ⟨"悪い", 0.8, 1.0⟩,
   ⟨"残念", 0.7, 1.0⟩,
   ⟨"嫌い", 0.7, 1.0⟩,
   ⟨"つまらない", 0.8, 1.0⟩,
   ⟨"不満", 0.7, 1.0⟩]

/-- Python's `round(x, 3)` over the reals. -/
noncomputable def pyRound3R (x : ℝ) : ℝ := ((round (x * 1000) : ℤ) : ℝ) / 1000

/-- `analyze_sentiment`: neutral 1.0, multiplied for each rule whose word
occurs, by `score ** (count * weight)` (`Real.rpow`, since `count * weight`
is not an integer for the `最高` rule).  All rule words are
metacharacter-free literals, so `len(re.findall(w, text))` is `countOccs`.
The `word_counts` dict is the association list of the positive counts. -/
noncomputable def analyze_sentiment (text : String) : ℝ :=
  if text = "" then 1.0
  else
    let word_counts : List (String × ℕ) :=
      SENTIMENT_PATTERNS.filterMap (fun p =>
        let c := countOccs p.word.data text.data
        if c > 0 then some (p.word, c) else none)
    let score : ℝ :=
      SENTIMENT_PATTERNS.foldl (fun acc p =>
        match word_counts.lookup p.word with
        | some c => acc * Real.rpow p.score ((c : ℚ) * p.weight : ℚ)
        | none => acc) 1.0
    pyRound3R score

/-! ## TrendAnalyzer (`backend/services/trend/analyzer.py`)

`TrendAnalyzer._identify_japanese_pos` / `_identify_english_pos` walk the
pattern tables with `re.match`; the tables are fixed, so each of the five
table walks is abstracted as one function returning the first category whose
patterns produce a match (`Option String`), collected in `PosEnv`.  The
numeric importances attached to the outcomes (0.5 for dependent/function
words, 2.0 for independent/content words, 0.1 for the symbol fallback) are
the code's literals. -/

structure PosEnv where
  /-- First category of `DEPENDENT_WORDS` (助詞, 助動詞) with a match. -/
  jpDependent : String → Option String
  /-- First category of `INDEPENDENT_WORDS` (名詞, 動詞, 形容詞, 副詞) with a
  match. -/
  jpIndependent : String → Option String
  /-- `self.be_verbs.match(word) or self.common_verbs.match(word)`. -/
  enVerb : String → Bool
  /-- First category of `FUNCTION_WORDS` with a match. -/
  enFunction : String → Option String
  /-- First category of the English `INDEPENDENT_WORDS` with a match. -/
  enIndependent : String → Option String

/-- `TrendAnalyzer._is_japanese_text`: `re.search(JAPANESE_CHARS, text)`. -/
def _is_japanese_text (text : String) : Bool := text.data.any jpChar

/-- `TrendAnalyzer._identify_japanese_pos`. -/
def _identify_japanese_pos (env : PosEnv) (word : String) : String × ℚ :=
  match env.jpDependent word with
  | some pos => (pos, 0.5)
  | none =>
    match env.jpIndependent word with
    | some pos => (pos, 2.0)
    | none => ("記号", 0.1)

/-- `TrendAnalyzer._identify_english_pos`. -/
def _identify_english_pos (env : PosEnv) (word : String) : String × ℚ :=
  if env.enVerb word then ("verb", 2.0)
  else
    match env.enFunction word with
    | some pos => (pos, 0.5)
    | none =>
      match env.enIndependent word with
      | some pos => (pos, 2.0)
      | none => ("symbol", 0.1)

/-- `TrendAnalyzer._identify_part_of_speech`. -/
def _identify_part_of_speech (env : PosEnv) (word : String) : String × ℚ :=
  if _is_japanese_text word then _identify_japanese_pos env word
  else _identify_english_pos env word

/-- The character loop of `TrendAnalyzer._extract_words`. -/
def extractLoop : List Char → String → List String → List String
  | [], cur, words => if cur ≠ "" then words ++ [cur] else words
  | c :: rest, cur, words =>
    if pyIsSpace c then
      extractLoop rest "" (if cur ≠ "" then words ++ [cur] else words)
    else if jpChar c then
      extractLoop rest (String.mk [c]) (if cur ≠ "" then words ++ [cur] else words)
    else if _is_japanese_text cur then
      extractLoop rest (String.mk [c]) (if cur ≠ "" then words ++ [cur] else words)
    else
      extractLoop rest (cur.push c) words

/-- `TrendAnalyzer._extract_words` (note `_is_japanese_text` on a single
character is exactly `jpChar`). -/
def _extract_words (text : String) : List String :=
  if text = "" then [] else extractLoop text.data "" []

/-- `IMPORTANT_PARTICLES` (`backend/constants/particles.py`):
`CASE_PARTICLES + ["から", "まで"]`. -/
def IMPORTANT_PARTICLES : List String :=
  ["は", "が", "を", "に", "へ", "で", "から", "まで"]

/-- `TrendAnalyzer._adjust_by_position`. -/
def _adjust_by_position (importance : ℚ) (index length : ℕ) : ℚ :=
  if index = 0 ∨ index = length - 1 then importance * 1.2 else importance

/-- `TrendAnalyzer._adjust_by_context`. -/
def _adjust_by_context (importance : ℚ) (word : String)
    (prev_words next_words : List String) : ℚ :=
  if word ∈ prev_words ∨ word ∈ next_words then importance * 1.5 else importance

/-- `TrendAnalyzer._adjust_by_grammar`. -/
def _adjust_by_grammar (env : PosEnv) (importance : ℚ) (word pos : String)
    (words : List String) (index : ℕ) : ℚ :=
  if _is_japanese_text word then
    if pos = "名詞" ∧ index < words.length - 1 ∧
        (words.getD (index + 1) "") ∈ IMPORTANT_PARTICLES then
      importance * 1.3
    else if pos = "動詞" ∧ index = words.length - 1 then importance * 1.2
    else importance
  else
    if pos = "noun" ∧ 0 < index ∧
        (_identify_part_of_speech env (words.getD (index - 1) "")).1 ∈
          ["article", "adjective"] then
      importance * 1.3
    else if pos = "verb" ∧ 0 < index ∧
        (_identify_part_of_speech env (words.getD (index - 1) "")).1 ∈
          ["noun", "pronoun"] then
      importance * 1.2
    else importance

/-- `TrendAnalyzer._adjust_importance`: position, context, then grammar
adjustment, capped at 3.0. -/
def _adjust_importance (env : PosEnv) (word pos : String) (base : ℚ)
    (current_words : List String) (index : ℕ)
    (prev_words next_words : List String) : ℚ :=
  pyMin
    (_adjust_by_grammar env
      (_adjust_by_context
        (_adjust_by_position base index current_words.length)
        word prev_words next_words)
      word pos current_words index)
    3.0

/-- `GRAY` (`backend/constants/colors.py`). -/
def GRAY : String := "#999999"

/-- `BLACK` (`backend/constants/colors.py`). -/
def BLACK : String := "#000000"

/-- `POS_COLORS` (`backend/constants/colors.py`). -/
def POS_COLORS : List (String × String) :=
  [("名詞", "#4CAF50"), ("代名詞", "#8BC34A"), ("動詞", "#2196F3"),
   ("形容詞", "#FF9800"), ("形容動詞", "#FF5722"), ("副詞", "#9C27B0"),
   ("連体詞", "#795548"), ("助詞", "#757575"), ("助動詞", "#607D8B"),
   ("接続詞", "#795548"), ("感動詞", "#E91E63"), ("記号", "#999999"),
   ("noun", "#4CAF50"), ("pronoun", "#8BC34A"), ("verb", "#2196F3"),
   ("adjective", "#FF9800"), ("adverb", "#9C27B0"), ("preposition", "#757575"),
   ("conjunction", "#795548"), ("article", "#757575"), ("determiner", "#795548"),
   ("interjection", "#E91E63"), ("symbol", "#999999")]

/-- `TrendAnalyzer._get_color_for_pos`. -/
def _get_color_for_pos (pos : String) (importance : ℚ) : String :=
  if importance ≤ 0.5 then GRAY else (POS_COLORS.lookup pos).getD BLACK

/-- One entry of the result list of `_analyze_with_context` (the literal
dict `{"word": …, "pos": …, "importance": …, "color": …}`). -/
structure AnnotatedToken where
  word : String
  pos : String
  importance : ℚ
  color : String
deriving DecidableEq

/-- The `enumerate(words)` loop of `_analyze_with_context`. -/
def analyzeLoop (env : PosEnv) (words prev_words next_words : List String) :
    ℕ → List String → List AnnotatedToken
  | _, [] => []
  | i, w :: ws =>
    let pb := _identify_part_of_speech env w
    let importance :=
      _adjust_importance env w pb.1 pb.2 words i prev_words next_words
    { word := w, pos := pb.1, importance := importance,
      color := _get_color_for_pos pb.1 importance } ::
      analyzeLoop env words prev_words next_words (i + 1) ws

/-- `TrendAnalyzer._analyze_with_context` (the spec's
`analyze_with_context(sentence, prev?, next?)`).  `prev_sentence` /
`next_sentence` are optional; a `None` or empty (falsy) one contributes no
context words. -/
def _analyze_with_context (env : PosEnv) (sentence : String)
    (prev_sentence next_sentence : Option String) : List AnnotatedToken :=
  let words := _extract_words sentence
  let prev_words :=
    match prev_sentence with
    | some p => if p = "" then [] else _extract_words p
    | none => []
  let next_words :=
    match next_sentence with
    | some n => if n = "" then [] else _extract_words n
    | none => []
  analyzeLoop env words prev_words next_words 0 words

/-! ### `TrendAnalyzer.update_trends` and its store interaction -/

/-- The characters of `TRAILING_SYMBOLS` (`backend/constants/patterns.py`):
the union of the `句読点`, `感嘆符` and `括弧` classes. -/
def TRAILING_SYMS : List Char :=
  ['、', '。', '，', '．', ',', '.',
   '！', '!', '？', '?', '‼', '⁉',
   '「', '」', '『', '』', '（', '）', '[', ']', '｛', '｝', '(', ')',
   Char.ofNat 0x7b, Char.ofNat 0x7d, '〈', '〉', '《', '》', '【', '】']

/-- `self.trailing_symbols.sub("", word)` for the pattern
`[TRAILING_SYMS]$`: `$` matches at the end of the string or just before a
final newline, so the (single) match removes a final symbol character, or a
symbol character directly preceding a final newline. -/
def stripTrailingSym (w : String) : String :=
  match w.data.reverse with
  | [] => w
  | c :: rest =>
    if c = '\n' then
      match rest with
      | c' :: rest' =>
        if c' ∈ TRAILING_SYMS then String.mk (('\n' :: rest').reverse) else w
      | [] => w
    else if c ∈ TRAILING_SYMS then String.mk rest.reverse else w

/-- The store operations `update_trends` issues, in order: the keyword
lookup `SELECT`, then either the counting `UPDATE` or the `INSERT`, then the
per-word `COMMIT`. -/
inductive DbOp
  | selectOp (kw : String)
  | insertOp (kw : String)
  | updateOp (kw : String)
  | commitOp
deriving DecidableEq

/-- The trend store: rows `(keyword, count)` plus the ordered log of issued
operations. -/
structure Db where
  store : List (String × ℕ)
  log : List DbOp

/-- The `for word in words` loop of `update_trends`: words of low importance
(≤ 0.5) are skipped before any store access; the word is then
symbol-stripped; an existing row is counted up via `UPDATE`, otherwise an
`INSERT … VALUES (keyword, 1, …)` creates it; `db.commit()` runs per
processed word. -/
def updateLoop (env : PosEnv) : List String → Db → Db
  | [], db => db
  | w :: ws, db =>
    if (_identify_part_of_speech env w).2 ≤ 0.5 then updateLoop env ws db
    else
      let w' := stripTrailingSym w
      if w' = "" then updateLoop env ws db
      else
        let db1 : Db := { db with log := db.log ++ [.selectOp w'] }
        let db2 : Db :=
          match db1.store.lookup w' with
          | some c =>
            { store := db1.store.map (fun p => if p.1 = w' then (p.1, c + 1) else p),
              log := db1.log ++ [.updateOp w'] }
          | none =>
            { store := db1.store ++ [(w', 1)],
              log := db1.log ++ [.insertOp w'] }
        updateLoop env ws { db2 with log := db2.log ++ [.commitOp] }

/-- `TrendAnalyzer.update_trends` (its store effects; the returned list of
dicts is not modelled, it echoes the rows touched). -/
def update_trends (env : PosEnv) (db : Db) (text : String) : Db :=
  updateLoop env (_extract_words text) db

/-- The keywords `update_trends` actually processes, in occurrence order:
extracted words that pass the importance filter, symbol-stripped, the empty
result dropped. -/
def trendKeywords (env : PosEnv) (text : String) : List String :=
  (_extract_words text).filterMap (fun w =>
    if (_identify_part_of_speech env w).2 ≤ 0.5 then none
    else
      let w' := stripTrailingSym w
      if w' = "" then none else some w')

/-- Number of `INSERT`-or-`UPDATE` operations issued for keyword `kw`. -/
def storeOpsFor (kw : String) (log : List DbOp) : ℕ :=
  (log.filter (fun op => op = .insertOp kw ∨ op = .updateOp kw)).length

/-! ## Longest-match engine: `_find_longest_match`
(`backend/patterns/tokenizer.py`)

A pattern is abstracted as its anchored-match function
`String → Option String` (`pattern.match(text)` returning `group(0)`, the
consumed prefix); the theorems quantify over the table. -/

/-- Anchored-match function of one compiled pattern. -/
abbrev MatchFn := String → Option String

/-- `_extract_jp_features`. -/
def _extract_jp_features (word pos : String) : List (String × String) :=
  if pos = "動詞" then
    if word.endsWith "する" then [("conjugation", "サ行変格")]
    else if word.endsWith "う" ∨ word.endsWith "つ" ∨ word.endsWith "る" then
      [("conjugation", "五段")]
    else []
  else if pos = "形容詞" then
    if word.endsWith "い" then [("type", "イ形容詞")]
    else if word.endsWith "な" then [("type", "ナ形容詞")]
    else []
  else []

/-- `_extract_en_features`. -/
def _extract_en_features (word pos : String) : List (String × String) :=
  if pos = "verb" then
    if word.endsWith "ing" then [("tense", "progressive")]
    else if word.endsWith "ed" then [("tense", "past")]
    else if word.endsWith "s" then [("tense", "present")]
    else []
  else if pos = "noun" then
    if word.endsWith "s" ∧ ¬ word.endsWith "ss" then [("number", "plural")]
    else [("number", "singular")]
  else []

/-- The running state of the `_find_longest_match` loop. -/
structure FlmState where
  longestMatch : Option String
  longestLength : ℕ
  matchedPos : String
  matchedFeatures : List (String × String)

/-- One iteration of the `for pattern, pos in patterns` loop: on a match,
the candidate is `match.group(0).strip()`; it replaces the current best only
if non-empty and *strictly* longer. -/
def flmStep (text : String) (lang : Language) (st : FlmState)
    (pp : MatchFn × String) : FlmState :=
  match pp.1 text with
  | none => st
  | some g =>
    let word := pyStripStr g
    if word ≠ "" ∧ st.longestLength < word.length then
      { longestMatch := some word, longestLength := word.length,
        matchedPos := pp.2,
        matchedFeatures :=
          if lang = Language.JAPANESE then _extract_jp_features word pp.2
          else _extract_en_features word pp.2 }
    else st

/-- `_find_longest_match`. -/
def _find_longest_match (text : String) (patterns : List (MatchFn × String))
    (lang : Language) : Option (Token × ℕ) :=
  let st := patterns.foldl (flmStep text lang) ⟨none, 0, "", []⟩
  match st.longestMatch with
  | some w =>
    some ({ text := w, pos := st.matchedPos, language := lang,
            is_compound := false, original_form := none,
            features := st.matchedFeatures }, st.longestLength)
  | none => none

/-- The selection rule in the specification's words, as a stand-alone
definition for comparison with `_find_longest_match`: among the patterns
whose anchored match has non-empty *stripped* text, the one with the
greatest stripped length, the earliest-declared winning ties; the result is
that stripped text, the pattern's tag, and the stripped length. -/
def specLongestMatch (text : String) :
    List (MatchFn × String) → Option (String × String × ℕ)
  | [] => none
  | pp :: rest =>
    let best := specLongestMatch text rest
    match pp.1 text with
    | none => best
    | some g =>
      let w := pyStripStr g
      if w = "" then best
      else
        match best with
        | none => some (w, pp.2, w.length)
        | some (_, _, n) => if n ≤ w.length then some (w, pp.2, w.length) else best

/-- The frozen claim C9, formalised: the engine always returns the match
consuming the greatest number of characters (`group(0)` length), earliest
table entry winning ties. -/
def greatestConsumedClaim : Prop :=
  ∀ (text : String) (patterns : List (MatchFn × String)) (lang : Language)
    (tok : Token) (n : ℕ),
    _find_longest_match text patterns lang = some (tok, n) →
    (∃ p ∈ patterns, ∃ g, p.1 text = some g ∧ g.length = n) ∧
    (∀ p ∈ patterns, ∀ g, p.1 text = some g → g.length ≤ n)

/-- State-passing version of `balLoop` for reasoning: the final
(stack, escaped) state, or `none` on a mismatched closing bracket.
`balLoop l st esc` answers whether the scan survives with an empty final
stack. -/
def balScan : List Char → List Char → Bool → Option (List Char × Bool)
  | [], stack, esc => some (stack, esc)
  | c :: rest, stack, esc =>
    if c = '\\' then balScan rest stack true
    else if esc then balScan rest stack false
    else if isOpening c then balScan rest (c :: stack) false
    else if isClosing c then
      match stack with
      | [] => none
      | top :: stack' =>
        if bracketPairs.lookup top = some c then balScan rest stack' false
        else none
    else balScan rest stack false

/-- A trivial concrete pattern environment for the analyzer (no pattern ever
matches), used in witnesses.  It agrees with Python's tables on the inputs
those witnesses use: for the word `"x"`, no Japanese table is consulted
(`"x"` has no Japanese character), `be_verbs`/`common_verbs` do not match,
and no `FUNCTION_WORDS`/`INDEPENDENT_WORDS` pattern matches `"x"` (all their
alternatives are multi-character words, classes excluding bare `x`, or
suffix patterns `[a-z]+<ending>` needing at least two characters). -/
def posEnvTrivial : PosEnv :=
  ⟨fun _ => none, fun _ => none, fun _ => false, fun _ => none, fun _ => none⟩

/-- Concrete pattern environment agreeing with Python's tables on the word
`"data"` (the only word the C8 counterexample feeds it): `"data"` has no
Japanese character, so the Japanese matchers are never consulted;
`be_verbs`/`common_verbs` do not match `"data"`; no `FUNCTION_WORDS`
pattern matches it (no alternative is a prefix of `data` ending at a word
boundary); and the first `INDEPENDENT_WORDS` category with a match is
`noun`, via the general-noun alternative `\b(?:data|system|…)\b`. -/
def envDataNoun : PosEnv :=
  ⟨fun _ => none, fun _ => none, fun _ => false, fun _ => none,
   fun w => if w = "data" then some "noun" else none⟩

/-- Pattern table for the C9 counterexample: on the text `"a b"` the first
pattern's anchored match consumes two characters (`"a "`, e.g. a pattern
ending in `\s`), the second consumes one (`"a"`). -/
def c9pats : List (MatchFn × String) :=
  [(fun t => if t = "a b" then some "a " else none, "P1"),
   (fun t => if t = "a b" then some "a" else none, "P2")]

/-!
# Theorems

Shared helper lemmas first, then one theorem per claim (with its witness or
counterexample where required).
-/

/-! ## ScoringCalculator: C1 and C2

`importance_weights` has keys for only 8 categories (名詞, 複合名詞, 造語,
ハッシュタグ and their English names), while the tables contain many more;
worse, the 4th Japanese noun entry is the *compiled* `ALPHA_NUM` pattern, so
`re.compile(pattern, re.I)` raises
`ValueError: cannot process flags argument with a compiled pattern` before
the keyword is even searched — for every keyword, under every regex
engine. -/

/-- A cache state containing only string-pattern keys (true of every cache
reachable from the empty one, since only `str` entries are ever inserted). -/
def allStrCache (cache : Cache) : Prop := ∀ p ∈ cache, ∃ s, p = PyPat.str s

theorem checkPatStep_ok_cache {re : Re} {w : List (String × ℚ)} {cat kw : String}
    {st : Cache × ℚ} {p : PyPat} {st' : Cache × ℚ}
    (h : checkPatStep re w cat kw st p = .ok st') :
    st'.1 = st.1 ∨ ∃ s, p = PyPat.str s ∧ st'.1 = PyPat.str s :: st.1 := by
  cases p with
  | strList l => simp [checkPatStep] at h
  | compiled src =>
    by_cases hm : PyPat.compiled src ∈ st.1
    · simp only [checkPatStep, if_pos hm] at h
      split at h
      · split at h
        · exact Or.inl (by cases h; rfl)
        · cases h
      · exact Or.inl (by cases h; rfl)
    · simp only [checkPatStep, if_neg hm] at h
      cases h
  | str s =>
    simp only [checkPatStep] at h
    split at h
    · cases h
    · by_cases hm : PyPat.str s ∈ st.1
      · left
        split at h
        · split at h
          · cases h; simp [if_pos hm]
          · cases h
        · cases h; simp [if_pos hm]
      · right
        refine ⟨s, rfl, ?_⟩
        split at h
        · split at h
          · cases h; simp [if_neg hm]
          · cases h
        · cases h; simp [if_neg hm]

theorem allStrCache_step {re : Re} {w : List (String × ℚ)} {cat kw : String}
    {st : Cache × ℚ} {p : PyPat} {st' : Cache × ℚ}
    (h : checkPatStep re w cat kw st p = .ok st') (hc : allStrCache st.1) :
    allStrCache st'.1 := by
  rcases checkPatStep_ok_cache h with h1 | ⟨s, rfl, h1⟩
  · rw [h1]; exact hc
  · rw [h1]
    intro q hq
    rcases List.mem_cons.mp hq with rfl | hq'
    · exact ⟨s, rfl⟩
    · exact hc _ hq'

theorem runPats_err_of_compiled {re : Re} {w : List (String × ℚ)} {cat kw : String}
    {ps : List PyPat} {st : Cache × ℚ} {src : String}
    (hc : allStrCache st.1) (hmem : PyPat.compiled src ∈ ps) :
    isErr (runPats re w cat kw ps st) = true := by
  induction ps generalizing st with
  | nil => cases hmem
  | cons p ps ih =>
    simp only [runPats]
    cases hstep : checkPatStep re w cat kw st p with
    | error e => simp [isErr]
    | ok st' =>
      rcases List.mem_cons.mp hmem with rfl | hmem'
      · by_cases hm : PyPat.compiled src ∈ st.1
        · obtain ⟨s, hs⟩ := hc _ hm
          exact absurd hs (by simp)
        · simp only [checkPatStep, if_neg hm] at hstep
          cases hstep
      · exact ih (allStrCache_step hstep hc) hmem'

theorem runCats_err_head {re : Re} {w : List (String × ℚ)} {kw cat : String}
    {ps : List PyPat} {cs : List (String × List PyPat)} {st : Cache × ℚ}
    (h : isErr (runPats re w cat kw ps st) = true) :
    isErr (runCats re w kw ((cat, ps) :: cs) st) = true := by
  simp only [runCats]
  cases hrp : runPats re w cat kw ps st with
  | error e => simp [isErr]
  | ok st' => rw [hrp] at h; simp [isErr] at h

/-- Core failure fact: on the program's own tables the importance
computation raises for *every* keyword and *every* regex engine, because the
4th 名詞 entry is the compiled `ALPHA_NUM` pattern. -/
theorem calcImportance_err (re : Re) (w : List (String × ℚ)) (kw : String) :
    isErr (_calculate_keyword_importance re w kw JP_PATTERNS EN_PATTERNS) = true := by
  have hmem : PyPat.compiled ALPHA_NUM_src ∈
      [PyPat.str KANJI, PyPat.str HIRAGANA, PyPat.str KATAKANA,
       PyPat.compiled ALPHA_NUM_src,
       PyPat.str (KANJI_CHARS ++ JAPANESE_CHARS ++ "+"),
       PyPat.str "\\d+(?:[年月日個円人回台分秒階]|[かが]?月|[かこ]?日)",
       PyPat.str ("(?:" ++ KANJI_CHARS ++ "|" ++ JAPANESE_CHARS ++
         ")+(?:性|化|法|式|的|論|学|者|家|場|室|所|品)")] := by
    simp
  have hjp : isErr (runCats re w (pyLower kw) JP_PATTERNS ([], 1)) = true := by
    apply runCats_err_head
    exact runPats_err_of_compiled (by intro p hp; cases hp) hmem
  unfold _calculate_keyword_importance
  cases hrc : runCats re w (pyLower kw) JP_PATTERNS ([], 1) with
  | error e => simp [isErr, hrc]
  | ok st => rw [hrc] at hjp; simp [isErr] at hjp

/-- Claim C1.  The claim states that `_calculate_keyword_importance` returns
the maximum configured weight of the matching categories (1.0 when none
match) and never fails.  In fact the computation raises for every keyword
and every regex-engine behaviour: the 4th entry of the 名詞 category of
`JP_PATTERNS` is the compiled `ALPHA_NUM` pattern object, and
`re.compile(pattern, re.I)` on an already-compiled pattern raises
`ValueError` (the entry can never be in the fresh cache, which only ever
receives string keys).  Had that entry been a string, the first keyword
matched by a category absent from `importance_weights` (e.g. 動詞) would
raise `KeyError` instead. -/
theorem c1_keyword_importance_always_raises (re : Re) (keyword : String) :
    isErr (_calculate_keyword_importance re importance_weights keyword
      JP_PATTERNS EN_PATTERNS) = true :=
  calcImportance_err re importance_weights keyword

/-- Claim C2.  The two guard clauses hold: empty keyword or negative age
yield `0.0`.  But the claimed totality and range fail: for every non-empty
keyword and non-negative age, `calculate_popularity_score` propagates the
`ValueError` raised by the importance computation (see
`c1_keyword_importance_always_raises`) instead of returning a value. -/
theorem c2_popularity_score_guards_and_crash :
    (∀ (re : Re) (c : ℕ) (h : ℚ),
      calculate_popularity_score re importance_weights trend_indicators c h ""
        JP_PATTERNS EN_PATTERNS = .ok 0) ∧
    (∀ (re : Re) (c : ℕ) (h : ℚ) (kw : String), h < 0 →
      calculate_popularity_score re importance_weights trend_indicators c h kw
        JP_PATTERNS EN_PATTERNS = .ok 0) ∧
    (∀ (re : Re) (c : ℕ) (h : ℚ) (kw : String), kw ≠ "" → 0 ≤ h →
      isErr (calculate_popularity_score re importance_weights trend_indicators
        c h kw JP_PATTERNS EN_PATTERNS) = true) := by
  refine ⟨?_, ?_, ?_⟩
  · intro re c h
    simp [calculate_popularity_score]
  · intro re c h kw hneg
    simp [calculate_popularity_score, hneg]
  · intro re c h kw hkw hpos
    have hguard : ¬ (kw = "" ∨ h < 0) := by
      push_neg
      exact ⟨hkw, hpos⟩
    have herr := calcImportance_err re importance_weights kw
    simp only [calculate_popularity_score, if_neg hguard]
    cases hI : _calculate_keyword_importance re importance_weights kw
        JP_PATTERNS EN_PATTERNS with
    | error e => simp [isErr]
    | ok v => rw [hI] at herr; simp [isErr] at herr

/-- Witness for C2: both hypothesis-bearing conjuncts applied at concrete
inputs (`reNoMatch` standing in for the engine; the conclusion of the third
conjunct is engine-independent). -/
theorem c2_popularity_score_guards_and_crash_witness :
    ((-1 : ℚ) < 0 ∧
      calculate_popularity_score reNoMatch importance_weights trend_indicators
        5 (-1) "AI" JP_PATTERNS EN_PATTERNS = .ok 0) ∧
    ("AI" ≠ "" ∧ (0 : ℚ) ≤ 1/5 ∧
      isErr (calculate_popularity_score reNoMatch importance_weights
        trend_indicators 5 (1/5) "AI" JP_PATTERNS EN_PATTERNS) = true) :=
  ⟨⟨by norm_num,
    c2_popularity_score_guards_and_crash.2.1 reNoMatch 5 (-1) "AI" (by norm_num)⟩,
   ⟨by decide, by norm_num,
    c2_popularity_score_guards_and_crash.2.2 reNoMatch 5 (1/5) "AI" (by decide)
      (by norm_num)⟩⟩

/-! ## Tokenizer: C10 and C4 -/

theorem mem_flush {P : Token → Prop} (hP : ∀ s, P (_create_token s))
    {toks : List Token} (htoks : ∀ t ∈ toks, P t) (cur : String) :
    ∀ t ∈ (if cur ≠ "" then toks ++ [_create_token cur] else toks), P t := by
  split
  · intro t ht
    rcases List.mem_append.mp ht with h | h
    · exact htoks _ h
    · rw [List.mem_singleton.mp h]
      exact hP _
  · exact htoks

/-- Every token the `tokenize_sentence` loop adds comes out of
`_create_token`, so any property of `_create_token` outputs is an invariant
of the accumulated list. -/
theorem tokLoop_pres {P : Token → Prop} (hP : ∀ s, P (_create_token s)) :
    ∀ (chars : List Char) (cur : String) (ctype : Option CharKind)
      (toks : List Token), (∀ t ∈ toks, P t) →
      ∀ t ∈ tokLoop chars cur ctype toks, P t := by
  intro chars
  induction chars with
  | nil =>
    intro cur ctype toks htoks t ht
    simp only [tokLoop] at ht
    exact mem_flush hP htoks cur t ht
  | cons c rest ih =>
    intro cur ctype toks htoks t ht
    simp only [tokLoop] at ht
    split at ht
    · exact ih _ _ _ (mem_flush hP htoks cur) t ht
    · split at ht
      · exact ih _ _ _ (mem_flush hP htoks cur) t ht
      · split at ht
        all_goals try split at ht
        all_goals try split at ht
        all_goals
          first
            | exact ih _ _ _ (mem_flush hP htoks cur) t ht
            | exact ih _ _ _ htoks t ht
            | exact ih _ _ _
                (fun u hu => (List.mem_append.mp hu).elim (htoks u)
                  (fun hx => by rw [List.mem_singleton.mp hx]; exact hP _)) t ht

/-- Claim C10: on the `tokenize_sentence` path every produced token has
`is_compound = False`, `original_form = None` and empty `features` — the
compound-word detection and the feature extraction are never invoked
(`_create_token` always fills these defaults). -/
theorem c10_tokenize_no_compound_no_features (s : String) :
    ∀ t ∈ tokenize_sentence s,
      t.is_compound = false ∧ t.original_form = none ∧ t.features = [] := by
  apply tokLoop_pres
  · intro w
    unfold _create_token
    split_ifs <;> simp
  · intro t ht
    cases ht

/-- Witness for C10: the token produced for the sentence `"x"`. -/
theorem c10_tokenize_no_compound_no_features_witness :
    (⟨"x", "word", Language.ENGLISH, false, none, []⟩ : Token) ∈
      tokenize_sentence "x" ∧
    ((⟨"x", "word", Language.ENGLISH, false, none, []⟩ : Token).is_compound = false ∧
     (⟨"x", "word", Language.ENGLISH, false, none, []⟩ : Token).original_form = none ∧
     (⟨"x", "word", Language.ENGLISH, false, none, []⟩ : Token).features = []) :=
  ⟨by decide, c10_tokenize_no_compound_no_features "x" _ (by decide)⟩

theorem flush_ne_nil {toks : List Token} {cur : String}
    (h : toks ≠ [] ∨ cur ≠ "") :
    (if cur ≠ "" then toks ++ [_create_token cur] else toks) ≠ [] := by
  split <;> simp_all

/-- Any character that is neither a flush separator nor whitespace forces
the loop to end with at least one token. -/
theorem tokLoop_ne_nil :
    ∀ (chars : List Char) (cur : String) (ctype : Option CharKind)
      (toks : List Token),
      (toks ≠ [] ∨ cur ≠ "" ∨ ∃ c ∈ chars, c ∉ tokSeps ∧ ¬ pyIsSpace c) →
      tokLoop chars cur ctype toks ≠ [] := by
  intro chars
  induction chars with
  | nil =>
    intro cur ctype toks hyp
    simp only [tokLoop]
    rcases hyp with h | h | ⟨c, hc, _⟩
    · exact flush_ne_nil (Or.inl h)
    · exact flush_ne_nil (Or.inr h)
    · cases hc
  | cons c rest ih =>
    intro cur ctype toks hyp
    simp only [tokLoop]
    split
    · refine ih _ _ _ ?_
      rcases hyp with h | h | ⟨d, hd, hreal⟩
      · exact Or.inl (flush_ne_nil (Or.inl h))
      · exact Or.inl (flush_ne_nil (Or.inr h))
      · rcases List.mem_cons.mp hd with rfl | hd'
        · exact absurd ‹d ∈ tokSeps› hreal.1
        · exact Or.inr (Or.inr ⟨d, hd', hreal⟩)
    · split
      · refine ih _ _ _ ?_
        rcases hyp with h | h | ⟨d, hd, hreal⟩
        · exact Or.inl (flush_ne_nil (Or.inl h))
        · exact Or.inl (flush_ne_nil (Or.inr h))
        · rcases List.mem_cons.mp hd with rfl | hd'
          · exact absurd ‹pyIsSpace d = true› hreal.2
          · exact Or.inr (Or.inr ⟨d, hd', hreal⟩)
      · split
        all_goals try split
        all_goals try split
        all_goals
          refine ih _ _ _ (Or.inr (Or.inl ?_))
        all_goals
          intro hfalse
          exact absurd (congrArg String.data hfalse) (by simp)

/-- Counterexample for claim C4: the sentence `"。"` is non-empty, yet
`tokenize_sentence` returns no tokens (the separator flushes an empty buffer
and is itself discarded). -/
theorem c4_counterexample_period_sentence :
    "。" ≠ "" ∧ tokenize_sentence "。" = [] := by
  constructor
  · decide
  · decide

/-- Claim C4 (amended): `tokenize_sentence` yields at least one token for
every sentence containing at least one character that is neither one of the
six flush separators `、，,。．.` nor whitespace; sentences of only
separators/whitespace (e.g. `"。"`) yield the empty token list.  Repeated
calls trivially agree: the embedded function is a pure function of the
sentence, as is the Python code (no global mutable state on this path). -/
theorem c4_tokenize_nonempty (s : String)
    (hc : ∃ c ∈ s.data, c ∉ tokSeps ∧ ¬ pyIsSpace c) :
    tokenize_sentence s ≠ [] :=
  tokLoop_ne_nil s.data "" none [] (Or.inr (Or.inr hc))

/-- Witness for C4 (amended), at the sentence `"x"`. -/
theorem c4_tokenize_nonempty_witness :
    (∃ c ∈ "x".data, c ∉ tokSeps ∧ ¬ pyIsSpace c) ∧
    tokenize_sentence "x" ≠ [] :=
  ⟨by decide, c4_tokenize_nonempty "x" (by decide)⟩

/-! ## SentenceSplitter: C5 -/

theorem isOpening_cases {c : Char} (h : isOpening c = true) :
    c = '「' ∨ c = '『' ∨ c = '(' ∨ c = '（' ∨ c = '[' ∨ c = '［' ∨
    c = Char.ofNat 0x7b ∨ c = '｛' ∨ c = '＜' ∨ c = '<' := by
  simp [isOpening, bracketPairs] at h
  tauto

theorem isClosing_cases {c : Char} (h : isClosing c = true) :
    c = '」' ∨ c = '』' ∨ c = ')' ∨ c = '）' ∨ c = ']' ∨ c = '］' ∨
    c = Char.ofNat 0x7d ∨ c = '｝' ∨ c = '＞' ∨ c = '>' := by
  simp [isClosing, bracketPairs] at h
  tauto

/-- Whitespace characters are inert for the balance scan: not a backslash,
not an opening bracket, not a closing bracket. -/
theorem ws_not_special {c : Char} (h : pyIsSpace c = true) :
    c ≠ '\\' ∧ isOpening c = false ∧ isClosing c = false := by
  refine ⟨?_, ?_, ?_⟩
  · rintro rfl
    exact absurd h (by decide)
  · by_contra hb
    rw [Bool.not_eq_false] at hb
    rcases isOpening_cases hb with rfl | rfl | rfl | rfl | rfl | rfl | rfl | rfl | rfl | rfl <;>
      exact absurd h (by decide)
  · by_contra hb
    rw [Bool.not_eq_false] at hb
    rcases isClosing_cases hb with rfl | rfl | rfl | rfl | rfl | rfl | rfl | rfl | rfl | rfl <;>
      exact absurd h (by decide)

theorem balScan_append (a b : List Char) (stack : List Char) (esc : Bool) :
    balScan (a ++ b) stack esc =
      (balScan a stack esc).bind (fun st => balScan b st.1 st.2) := by
  induction a generalizing stack esc with
  | nil => simp [balScan]
  | cons c t ih =>
    simp only [List.cons_append, balScan]
    split_ifs with h1 h2 h3 h4
    · exact ih _ _
    · exact ih _ _
    · exact ih _ _
    · cases stack with
      | nil => simp
      | cons top rest =>
        dsimp only
        split_ifs with h5
        · exact ih _ _
        · simp
    · exact ih _ _

theorem balLoop_eq_scan (l : List Char) (stack : List Char) (esc : Bool) :
    balLoop l stack esc =
      ((balScan l stack esc).map (fun st => st.1.isEmpty)).getD false := by
  induction l generalizing stack esc with
  | nil => simp [balLoop, balScan]
  | cons c t ih =>
    simp only [balLoop, balScan]
    split_ifs with h1 h2 h3 h4
    · exact ih _ _
    · exact ih _ _
    · exact ih _ _
    · cases stack with
      | nil => simp
      | cons top rest =>
        dsimp only
        split_ifs with h5
        · exact ih _ _
        · simp
    · exact ih _ _

/-- Scanning whitespace from an unescaped state changes nothing. -/
theorem balScan_ws_false {ws : List Char} (stack : List Char)
    (h : ∀ c ∈ ws, pyIsSpace c = true) :
    balScan ws stack false = some (stack, false) := by
  induction ws with
  | nil => rfl
  | cons c t ih =>
    have hsp := ws_not_special (h c (List.mem_cons_self c t))
    simp only [balScan, if_neg hsp.1]
    rw [if_neg (by simp), if_neg (by simp [hsp.2.1]), if_neg (by simp [hsp.2.2])]
    exact ih (fun d hd => h d (List.mem_cons_of_mem _ hd))

/-- Scanning whitespace from any state keeps the stack. -/
theorem balScan_ws_any {ws : List Char} (stack : List Char) (esc : Bool)
    (h : ∀ c ∈ ws, pyIsSpace c = true) :
    ∃ esc', balScan ws stack esc = some (stack, esc') := by
  cases ws with
  | nil => exact ⟨esc, rfl⟩
  | cons c t =>
    have hsp := ws_not_special (h c (List.mem_cons_self c t))
    have ht : ∀ d ∈ t, pyIsSpace d = true := fun d hd => h d (List.mem_cons_of_mem _ hd)
    refine ⟨false, ?_⟩
    simp only [balScan, if_neg hsp.1]
    cases esc with
    | true => simp only [if_pos rfl]; exact balScan_ws_false stack ht
    | false =>
      rw [if_neg (by simp), if_neg (by simp [hsp.2.1]), if_neg (by simp [hsp.2.2])]
      exact balScan_ws_false stack ht

/-- Stripping surrounding whitespace does not change the balance verdict. -/
theorem balLoop_pyStrip (l : List Char) :
    balLoop (pyStrip l) [] false = balLoop l [] false := by
  have hl : l.takeWhile pyIsSpace ++ stripLeft l = l :=
    List.takeWhile_append_dropWhile pyIsSpace l
  have hm : ((stripLeft l).reverse.dropWhile pyIsSpace).reverse ++
      ((stripLeft l).reverse.takeWhile pyIsSpace).reverse = stripLeft l := by
    rw [← List.reverse_append, List.takeWhile_append_dropWhile, List.reverse_reverse]
  rw [balLoop_eq_scan, balLoop_eq_scan]
  conv_rhs => rw [← hl]
  rw [balScan_append,
    balScan_ws_false [] (fun c hc => List.mem_takeWhile_imp hc)]
  simp only [Option.some_bind]
  conv_rhs => rw [← hm]
  rw [balScan_append]
  have hws : ∀ c ∈ ((stripLeft l).reverse.takeWhile pyIsSpace).reverse,
      pyIsSpace c = true := by
    intro c hc
    exact List.mem_takeWhile_imp (List.mem_reverse.mp hc)
  cases hd : balScan ((stripLeft l).reverse.dropWhile pyIsSpace).reverse [] false with
  | none =>
    simp only [stripLeft] at hd
    simp [pyStrip, stripLeft, hd]
  | some st =>
    obtain ⟨esc', hesc⟩ := balScan_ws_any st.1 st.2 hws
    simp only [stripLeft] at hd hesc
    simp [pyStrip, stripLeft, hd, hesc]

/-- `_is_balanced` is invariant under `str.strip()`. -/
theorem is_balanced_strip (s : String) :
    _is_balanced (pyStripStr s) = _is_balanced s :=
  balLoop_pyStrip s.data

theorem processFrag_all {acc : List String} {cur : String} (frag : String)
    (h : ∀ s ∈ acc, _is_balanced s = true) :
    ∀ s ∈ (processFrag (acc, cur) frag).1, _is_balanced s = true := by
  unfold processFrag
  dsimp only
  split_ifs with hb
  · intro s hs
    rcases List.mem_append.mp hs with hs' | hs'
    · exact h s hs'
    · rw [List.mem_singleton.mp hs']
      rw [is_balanced_strip]
      exact hb
  · exact h

theorem itemsFold_all (items : List String) :
    ∀ (st : List String × String), (∀ s ∈ st.1, _is_balanced s = true) →
    ∀ s ∈ (items.foldl
      (fun acc item => if pyStripStr item ≠ "" then processFrag acc item else acc)
      st).1, _is_balanced s = true := by
  induction items with
  | nil => intro st h; exact h
  | cons item items ih =>
    intro st h
    simp only [List.foldl_cons]
    apply ih
    split_ifs with hi
    · rcases st with ⟨acc, cur⟩
      exact processFrag_all item h
    · exact h

theorem splitLoop_all (g : String → List String) (raws : List String) :
    ∀ (st : List String × String), (∀ s ∈ st.1, _is_balanced s = true) →
    ∀ s ∈ (splitLoop g raws st).1, _is_balanced s = true := by
  induction raws with
  | nil => intro st h; exact h
  | cons r raws ih =>
    intro st h
    simp only [splitLoop]
    apply ih
    split_ifs with hlen
    · exact itemsFold_all (g r) st h
    · rcases st with ⟨acc, cur⟩
      exact processFrag_all r h

/-- Claim C5: every sentence emitted by `split_sentences`, except possibly
the last, is balanced with respect to `_is_balanced`'s pair table — for any
behaviour of the two `re.split` library calls (quantified as `f` and `g`),
hence in particular for Python's.  Only the end-of-input flush can emit an
unbalanced remainder, and it lands in the last position. -/
theorem c5_split_sentences_balanced (f g : String → List String) (text : String) :
    ∀ s ∈ (split_sentences f g text).dropLast, _is_balanced s = true := by
  intro s hs
  unfold split_sentences at hs
  have hst : ∀ u ∈ (splitLoop g (f text) ([], "")).1, _is_balanced u = true :=
    splitLoop_all g (f text) ([], "") (by intro u hu; cases hu)
  dsimp only at hs
  split_ifs at hs with hflush
  · rw [List.filter_append] at hs
    cases hkeep : List.filter (fun s => s ≠ "") [pyStripStr (splitLoop g (f text) ([], "")).2] with
    | nil =>
      rw [hkeep, List.append_nil] at hs
      have : s ∈ List.filter (fun s => s ≠ "") (splitLoop g (f text) ([], "")).1 :=
        (List.dropLast_sublist _).subset hs
      exact hst s (List.mem_filter.mp this).1
    | cons x xs =>
      have hx : xs = [] := by
        have := congrArg List.length hkeep
        simp [List.length_filter_le] at this
        cases xs with
        | nil => rfl
        | cons y ys =>
          exfalso
          have hle := List.length_filter_le (fun s => decide (s ≠ ""))
            [pyStripStr (splitLoop g (f text) ([], "")).2]
          rw [hkeep] at hle
          simp at hle
      subst hx
      rw [hkeep, List.dropLast_concat] at hs
      exact hst s (List.mem_filter.mp hs).1
  · have : s ∈ List.filter (fun s => s ≠ "") (splitLoop g (f text) ([], "")).1 :=
      (List.dropLast_sublist _).subset hs
    exact hst s (List.mem_filter.mp this).1

/-- Witness for C5: a two-sentence split (splitters returning fixed
fragments), whose first emitted sentence is balanced. -/
theorem c5_split_sentences_balanced_witness :
    "「a」" ∈ (split_sentences (fun _ => ["「a」", "b"]) (fun s => [s]) "t").dropLast ∧
    _is_balanced "「a」" = true :=
  ⟨by decide,
   c5_split_sentences_balanced (fun _ => ["「a」", "b"]) (fun s => [s]) "t"
     "「a」" (by decide)⟩

/-! ## ImportanceAdjuster: C7 -/

theorem identify_part_of_speech_pos (env : PosEnv) (w : String) :
    0 < (_identify_part_of_speech env w).2 := by
  unfold _identify_part_of_speech
  split_ifs
  · unfold _identify_japanese_pos
    cases env.jpDependent w with
    | some pos => norm_num
    | none =>
      cases env.jpIndependent w with
      | some pos => norm_num
      | none => norm_num
  · unfold _identify_english_pos
    split_ifs
    · norm_num
    · cases env.enFunction w with
      | some pos => norm_num
      | none =>
        cases env.enIndependent w with
        | some pos => norm_num
        | none => norm_num

theorem adjust_by_position_pos {imp : ℚ} (h : 0 < imp) (i len : ℕ) :
    0 < _adjust_by_position imp i len := by
  unfold _adjust_by_position
  split_ifs
  · exact mul_pos h (by norm_num)
  · exact h

theorem adjust_by_context_pos {imp : ℚ} (h : 0 < imp) (w : String)
    (pw nw : List String) : 0 < _adjust_by_context imp w pw nw := by
  unfold _adjust_by_context
  split_ifs
  · exact mul_pos h (by norm_num)
  · exact h

theorem adjust_by_grammar_pos (env : PosEnv) {imp : ℚ} (h : 0 < imp)
    (w pos : String) (ws : List String) (i : ℕ) :
    0 < _adjust_by_grammar env imp w pos ws i := by
  unfold _adjust_by_grammar
  split_ifs <;> first
    | exact mul_pos h (by norm_num)
    | exact h

theorem pyMin_pos {a b : ℚ} (ha : 0 < a) (hb : 0 < b) : 0 < pyMin a b := by
  unfold pyMin
  split_ifs <;> assumption

theorem pyMin_le_right (a b : ℚ) : pyMin a b ≤ b := by
  unfold pyMin
  split_ifs with h
  · exact h
  · exact le_refl b

theorem adjust_importance_pos (env : PosEnv) (w pos : String) {base : ℚ}
    (h : 0 < base) (cw : List String) (i : ℕ) (pw nw : List String) :
    0 < _adjust_importance env w pos base cw i pw nw := by
  unfold _adjust_importance
  exact pyMin_pos
    (adjust_by_grammar_pos env
      (adjust_by_context_pos (adjust_by_position_pos h i cw.length) w pw nw)
      w pos cw i)
    (by norm_num)

theorem adjust_importance_le (env : PosEnv) (w pos : String) (base : ℚ)
    (cw : List String) (i : ℕ) (pw nw : List String) :
    _adjust_importance env w pos base cw i pw nw ≤ 3 := by
  unfold _adjust_importance
  exact le_trans (pyMin_le_right _ _) (by norm_num)

theorem analyzeLoop_bounds (env : PosEnv) (words pw nw : List String) :
    ∀ (i : ℕ) (ws : List String) (r : AnnotatedToken),
      r ∈ analyzeLoop env words pw nw i ws →
      0 < r.importance ∧ r.importance ≤ 3 := by
  intro i ws
  induction ws generalizing i with
  | nil => intro r hr; cases hr
  | cons w ws ih =>
    intro r hr
    simp only [analyzeLoop] at hr
    rcases List.mem_cons.mp hr with rfl | hr'
    · refine ⟨?_, ?_⟩
      · exact adjust_importance_pos env w _
          (identify_part_of_speech_pos env w) words i pw nw
      · exact adjust_importance_le env w _ _ words i pw nw
    · exact ih _ r hr'

/-- Claim C7: every annotated token produced by the context-aware analysis
has importance strictly greater than 0 and at most 3.0 (for every pattern
environment, sentence, and optional neighbours): the base importance is one
of 0.1 / 0.5 / 2.0, every adjustment multiplies by a factor ≥ 1, and the
result is capped by `min(·, 3.0)`. -/
theorem c7_importance_in_bounds (env : PosEnv) (sentence : String)
    (prev_sentence next_sentence : Option String) :
    ∀ r ∈ _analyze_with_context env sentence prev_sentence next_sentence,
      0 < r.importance ∧ r.importance ≤ 3 := by
  intro r hr
  unfold _analyze_with_context at hr
  exact analyzeLoop_bounds env _ _ _ 0 _ r hr

/-- Witness for C7: the single token of the sentence `"x"` under the trivial
environment has importance 0.12 = 0.1 × 1.2 ∈ (0, 3]. -/
theorem c7_importance_in_bounds_witness :
    (⟨"x", "symbol", 0.12, "#999999"⟩ : AnnotatedToken) ∈
      _analyze_with_context posEnvTrivial "x" none none ∧
    (0 < (⟨"x", "symbol", 0.12, "#999999"⟩ : AnnotatedToken).importance ∧
     (⟨"x", "symbol", 0.12, "#999999"⟩ : AnnotatedToken).importance ≤ 3) := by
  have hmem : (⟨"x", "symbol", 0.12, "#999999"⟩ : AnnotatedToken) ∈
      _analyze_with_context posEnvTrivial "x" none none := by
    have hw : _extract_words "x" = ["x"] := by decide
    have hjp : _is_japanese_text "x" = false := by decide
    unfold _analyze_with_context
    rw [hw]
    simp only [analyzeLoop]
    norm_num [_identify_part_of_speech, _identify_english_pos, posEnvTrivial,
      hjp, _adjust_importance, _adjust_by_position, _adjust_by_context,
      _adjust_by_grammar, pyMin, _get_color_for_pos, GRAY]
  exact ⟨hmem, c7_importance_in_bounds posEnvTrivial "x" none none _ hmem⟩

/-! ## `update_trends` store contract: C8 -/

theorem storeOpsFor_append (kw : String) (l1 l2 : List DbOp) :
    storeOpsFor kw (l1 ++ l2) = storeOpsFor kw l1 + storeOpsFor kw l2 := by
  unfold storeOpsFor
  rw [List.filter_append, List.length_append]

/-- One store operation (`INSERT` or `UPDATE`) is issued per processed word
occurrence — regardless of the store contents. -/
theorem updateLoop_ops (env : PosEnv) (kw : String) :
    ∀ (ws : List String) (db : Db),
      storeOpsFor kw (updateLoop env ws db).log =
        storeOpsFor kw db.log +
          (ws.filterMap (fun w =>
            if (_identify_part_of_speech env w).2 ≤ 0.5 then none
            else
              let w' := stripTrailingSym w
              if w' = "" then none else some w')).count kw := by
  intro ws
  induction ws with
  | nil => intro db; simp [updateLoop]
  | cons w ws ih =>
    intro db
    simp only [updateLoop, List.filterMap_cons]
    split_ifs with h1 h2
    · rw [ih]
    · rw [ih]
    · cases hlk : db.store.lookup (stripTrailingSym w) with
      | some c =>
        rw [ih]
        simp only [List.count_cons, storeOpsFor_append]
        have hsel : storeOpsFor kw [DbOp.selectOp (stripTrailingSym w)] = 0 := by
          simp [storeOpsFor]
        have hupd : storeOpsFor kw [DbOp.updateOp (stripTrailingSym w)] =
            if stripTrailingSym w = kw then 1 else 0 := by
          simp only [storeOpsFor, List.filter]
          split_ifs with hkk <;> simp_all
        have hcom : storeOpsFor kw [DbOp.commitOp] = 0 := by
          simp [storeOpsFor]
        simp only [hsel, hupd, hcom]
        have : (kw == stripTrailingSym w) = (stripTrailingSym w == kw) := by
          rcases eq_or_ne kw (stripTrailingSym w) with rfl | hne
          · rfl
          · simp [hne, Ne.symm hne]
        simp [beq_iff_eq, this]
        split_ifs with hx <;> simp_all <;> omega
      | none =>
        rw [ih]
        simp only [List.count_cons, storeOpsFor_append]
        have hsel : storeOpsFor kw [DbOp.selectOp (stripTrailingSym w)] = 0 := by
          simp [storeOpsFor]
        have hins : storeOpsFor kw [DbOp.insertOp (stripTrailingSym w)] =
            if stripTrailingSym w = kw then 1 else 0 := by
          simp only [storeOpsFor, List.filter]
          split_ifs with hkk <;> simp_all
        have hcom : storeOpsFor kw [DbOp.commitOp] = 0 := by
          simp [storeOpsFor]
        simp only [hsel, hins, hcom]
        simp [beq_iff_eq]
        split_ifs with hx <;> simp_all <;> omega

/-- Counterexample for claim C8: for the text `"data data"` — one distinct
keyword occurring twice — `update_trends` issues **two** store mutations for
the keyword `"data"` (an `INSERT` then an `UPDATE`), and commits after each
processed word rather than in one caller-managed scope, as the full
operation log shows. -/
theorem c8_counterexample_two_ops_for_one_keyword :
    (update_trends envDataNoun ⟨[], []⟩ "data data").log =
      [DbOp.selectOp "data", DbOp.insertOp "data", DbOp.commitOp,
       DbOp.selectOp "data", DbOp.updateOp "data", DbOp.commitOp] ∧
    storeOpsFor "data" (update_trends envDataNoun ⟨[], []⟩ "data data").log = 2 := by
  have h1 : _extract_words "data data" = ["data", "data"] := by decide
  have hjp : _is_japanese_text "data" = false := by decide
  have hid : _identify_part_of_speech envDataNoun "data" = ("noun", 2.0) := by
    unfold _identify_part_of_speech _identify_english_pos envDataNoun
    rw [hjp]
    simp
  have hstrip : stripTrailingSym "data" = "data" := by decide
  have hlog : (update_trends envDataNoun ⟨[], []⟩ "data data").log =
      [DbOp.selectOp "data", DbOp.insertOp "data", DbOp.commitOp,
       DbOp.selectOp "data", DbOp.updateOp "data", DbOp.commitOp] := by
    unfold update_trends
    rw [h1]
    simp only [updateLoop, hid, hstrip]
    norm_num [List.lookup]
    simp
  refine ⟨hlog, ?_⟩
  rw [hlog]
  decide

/-- Claim C8 (amended): within one analysis pass `update_trends` issues
exactly one store mutation (`INSERT` or `UPDATE`) per **occurrence** of each
processed keyword — not one per distinct keyword — and commits once per
processed word inside the loop.  A keyword occurring n times in the text
(and passing the importance/symbol filters) causes n store mutations: the
first inserts, later ones update. -/
theorem c8_one_store_op_per_occurrence (env : PosEnv) (text : String)
    (kw : String) :
    storeOpsFor kw (update_trends env ⟨[], []⟩ text).log =
      (trendKeywords env text).count kw := by
  unfold update_trends trendKeywords
  rw [updateLoop_ops env kw (_extract_words text) ⟨[], []⟩]
  simp [storeOpsFor]

/-! ## Longest-match engine: C9 -/

/-- The `_find_longest_match` fold, started anywhere, lands on the
specification-side selection (earliest pattern of maximal *stripped* length)
whenever that beats the starting state strictly. -/
theorem flm_fold_spec (text : String) (lang : Language) :
    ∀ (ps : List (MatchFn × String)) (st : FlmState),
      ps.foldl (flmStep text lang) st =
        (match specLongestMatch text ps with
         | none => st
         | some (w, pos, n) =>
           if st.longestLength < n then
             ⟨some w, n, pos,
              if lang = Language.JAPANESE then _extract_jp_features w pos
              else _extract_en_features w pos⟩
           else st) := by
  intro ps
  induction ps with
  | nil => intro st; simp [specLongestMatch]
  | cons pp ps ih =>
    intro st
    cases hm : pp.1 text with
    | none =>
      simp only [List.foldl_cons, specLongestMatch, flmStep, hm]
      exact ih st
    | some g =>
      simp only [List.foldl_cons, specLongestMatch, flmStep, hm]
      by_cases hw : pyStripStr g = ""
      · rw [if_neg (by simp [hw]), if_pos hw]
        exact ih st
      · rw [if_neg hw]
        rw [ih]
        cases hs : specLongestMatch text ps with
        | none =>
          dsimp only
          by_cases h1 : st.longestLength < (pyStripStr g).length
          · rw [if_pos (⟨hw, h1⟩ :
              ¬pyStripStr g = "" ∧ st.longestLength < (pyStripStr g).length)]
            rw [if_pos h1]
          · rw [if_neg (show
              ¬(¬pyStripStr g = "" ∧ st.longestLength < (pyStripStr g).length) from
                fun hc => h1 hc.2)]
            rw [if_neg h1]
        | some wpn =>
          obtain ⟨w', p', n'⟩ := wpn
          dsimp only
          by_cases h1 : st.longestLength < (pyStripStr g).length
          · rw [if_pos (⟨hw, h1⟩ :
              ¬pyStripStr g = "" ∧ st.longestLength < (pyStripStr g).length)]
            dsimp only
            by_cases h2 : n' ≤ (pyStripStr g).length
            · rw [if_pos h2]
              dsimp only
              rw [if_neg (show ¬(pyStripStr g).length < n' by omega), if_pos h1]
            · rw [if_neg h2]
              dsimp only
              rw [if_pos (show (pyStripStr g).length < n' by omega),
                if_pos (show st.longestLength < n' by omega)]
          · rw [if_neg (show
              ¬(¬pyStripStr g = "" ∧ st.longestLength < (pyStripStr g).length) from
                fun hc => h1 hc.2)]
            by_cases h2 : n' ≤ (pyStripStr g).length
            · rw [if_pos h2]
              dsimp only
              rw [if_neg (show ¬st.longestLength < n' by omega), if_neg h1]
            · rw [if_neg h2]

/-- A successful `specLongestMatch` result reports the stripped text, which
is non-empty, with its length. -/
theorem specLongestMatch_shape (text : String) :
    ∀ (ps : List (MatchFn × String)) (w pos : String) (n : ℕ),
      specLongestMatch text ps = some (w, pos, n) → w ≠ "" ∧ n = w.length := by
  intro ps
  induction ps with
  | nil => intro w pos n h; cases h
  | cons pp ps ih =>
    intro w pos n h
    simp only [specLongestMatch] at h
    cases hm : pp.1 text with
    | none =>
      rw [hm] at h
      dsimp only at h
      exact ih w pos n h
    | some g =>
      rw [hm] at h
      dsimp only at h
      by_cases hw2 : pyStripStr g = ""
      · rw [if_pos hw2] at h
        exact ih w pos n h
      · rw [if_neg hw2] at h
        cases hs : specLongestMatch text ps with
        | none =>
          rw [hs] at h
          dsimp only at h
          cases h
          exact ⟨hw2, rfl⟩
        | some wpn =>
          obtain ⟨w', p', n'⟩ := wpn
          rw [hs] at h
          dsimp only at h
          split_ifs at h
          · cases h
            exact ⟨hw2, rfl⟩
          · simp only [Option.some.injEq, Prod.mk.injEq] at h
            obtain ⟨rfl, rfl, rfl⟩ := h
            exact ih _ _ _ hs

/-- Claim C9 (amended): the engine selects by the length of the
whitespace-**stripped** match text (`match.group(0).strip()`), not by the
number of consumed characters; among patterns with non-empty stripped
matches the greatest stripped length wins, the earliest-declared pattern
winning ties (the fold only replaces on strictly greater length); matches
whose stripped text is empty are ignored; the returned token text and
length are the stripped text and its length. -/
theorem c9_longest_stripped_match (text : String)
    (patterns : List (MatchFn × String)) (lang : Language) :
    (_find_longest_match text patterns lang).map
        (fun r => (r.1.text, r.1.pos, r.2)) =
      specLongestMatch text patterns := by
  unfold _find_longest_match
  rw [flm_fold_spec]
  cases hs : specLongestMatch text patterns with
  | none => simp
  | some wpn =>
    obtain ⟨w, pos, n⟩ := wpn
    obtain ⟨hw, rfl⟩ := specLongestMatch_shape text patterns w pos n hs
    have hpos : 0 < w.length := by
      rcases Nat.eq_zero_or_pos w.length with h0 | h
      · exfalso
        apply hw
        have hdata : w.data = [] := List.length_eq_zero.mp h0
        cases w
        simp_all
      · exact h
    dsimp only
    rw [if_pos hpos]
    simp

/-- Counterexample for claim C9 as frozen: on the text `"a b"` with a
pattern whose anchored match consumes `"a "` (two characters) declared
before one consuming `"a"`, the engine returns length 1 (the *stripped*
length), not the greatest consumed length 2 — so the claim's
"greatest number of consumed characters" reading is false. -/
theorem c9_counterexample_consumed_length : ¬ greatestConsumedClaim := by
  intro h
  have heval : _find_longest_match "a b" c9pats Language.ENGLISH =
      some (⟨"a", "P1", Language.ENGLISH, false, none, []⟩, 1) := by decide
  obtain ⟨hex, hall⟩ := h "a b" c9pats Language.ENGLISH _ 1 heval
  have hmem : ((fun t => if t = "a b" then some "a " else none : MatchFn), "P1") ∈
      c9pats := by
    unfold c9pats
    exact List.mem_cons_self _ _
  have hle := hall _ hmem "a " (by simp)
  exact absurd hle (by decide)

/-! ## SentimentScorer: C6

The configured rule for `最高` is `SentimentPattern("最高", 1.5, 1.2)` —
weight 1.2, not 1.0 — so one occurrence contributes `1.5 ** 1.2 ≈ 1.6266`,
not `1.5`, and two contribute `1.5 ** 2.4 ≈ 2.6462`, not `2.25`. -/

theorem rpow_six_fifths_bounds :
    (1.6265 : ℝ) < (3/2 : ℝ) ^ ((6/5 : ℝ)) ∧
    (3/2 : ℝ) ^ ((6/5 : ℝ)) < 1.6275 := by
  have hbase : (0:ℝ) ≤ 3/2 := by norm_num
  have key : ((3/2:ℝ) ^ ((6/5:ℝ))) ^ (5:ℕ) = (3/2:ℝ) ^ (6:ℕ) := by
    rw [← Real.rpow_natCast ((3/2:ℝ) ^ ((6/5:ℝ))) 5, ← Real.rpow_mul hbase]
    rw [show (6/5 : ℝ) * ((5:ℕ):ℝ) = ((6:ℕ):ℝ) by push_cast; ring]
    rw [Real.rpow_natCast]
  constructor
  · apply lt_of_pow_lt_pow_left₀ 5 (Real.rpow_nonneg hbase _)
    rw [key]
    norm_num
  · apply lt_of_pow_lt_pow_left₀ 5 (by norm_num : (0:ℝ) ≤ 1.6275)
    rw [key]
    norm_num

theorem rpow_twelve_fifths_bounds :
    (2.6455 : ℝ) < (3/2 : ℝ) ^ ((12/5 : ℝ)) ∧
    (3/2 : ℝ) ^ ((12/5 : ℝ)) < 2.6465 := by
  have hbase : (0:ℝ) ≤ 3/2 := by norm_num
  have key : ((3/2:ℝ) ^ ((12/5:ℝ))) ^ (5:ℕ) = (3/2:ℝ) ^ (12:ℕ) := by
    rw [← Real.rpow_natCast ((3/2:ℝ) ^ ((12/5:ℝ))) 5, ← Real.rpow_mul hbase]
    rw [show (12/5 : ℝ) * ((5:ℕ):ℝ) = ((12:ℕ):ℝ) by push_cast; ring]
    rw [Real.rpow_natCast]
  constructor
  · apply lt_of_pow_lt_pow_left₀ 5 (Real.rpow_nonneg hbase _)
    rw [key]
    norm_num
  · apply lt_of_pow_lt_pow_left₀ 5 (by norm_num : (0:ℝ) ≤ 2.6465)
    rw [key]
    norm_num

theorem pyRound3R_six_fifths : pyRound3R ((3/2:ℝ) ^ ((6/5:ℝ))) = 1627/1000 := by
  obtain ⟨hlo, hhi⟩ := rpow_six_fifths_bounds
  unfold pyRound3R
  have hr : round ((3/2:ℝ) ^ ((6/5:ℝ)) * 1000) = 1627 := by
    rw [round_eq]
    apply Int.floor_eq_iff.mpr
    constructor
    · push_cast
      nlinarith
    · push_cast
      nlinarith
  rw [hr]
  norm_num

theorem pyRound3R_twelve_fifths : pyRound3R ((3/2:ℝ) ^ ((12/5:ℝ))) = 1323/500 := by
  obtain ⟨hlo, hhi⟩ := rpow_twelve_fifths_bounds
  unfold pyRound3R
  have hr : round ((3/2:ℝ) ^ ((12/5:ℝ)) * 1000) = 2646 := by
    rw [round_eq]
    apply Int.floor_eq_iff.mpr
    constructor
    · push_cast
      nlinarith
    · push_cast
      nlinarith
  rw [hr]
  norm_num

set_option maxRecDepth 8000 in
theorem analyze_sentiment_saikou : analyze_sentiment "最高" = 1627/1000 := by
  have hwc : SENTIMENT_PATTERNS.filterMap (fun p =>
      let c := countOccs p.word.data "最高".data
      if c > 0 then some (p.word, c) else none) = [("最高", 1)] := by
    have hd1 : List.drop ("最高".length - 1) (['高'] : List Char) = [] := by decide
    simp +decide [SENTIMENT_PATTERNS, countOccs, hd1]
  unfold analyze_sentiment
  rw [if_neg (by decide)]
  dsimp only
  rw [hwc]
  simp +decide [SENTIMENT_PATTERNS, List.foldl_cons, List.foldl_nil, List.lookup]
  rw [show (1.0 : ℝ) = 1 by norm_num, one_mul]
  rw [show (1.5 : ℝ) = 3/2 by norm_num, show (1.2 : ℝ) = 6/5 by norm_num]
  exact pyRound3R_six_fifths

set_option maxRecDepth 8000 in
theorem analyze_sentiment_saikou_double :
    analyze_sentiment "最高最高" = 1323/500 := by
  have hwc : SENTIMENT_PATTERNS.filterMap (fun p =>
      let c := countOccs p.word.data "最高最高".data
      if c > 0 then some (p.word, c) else none) = [("最高", 2)] := by
    have hd1 : List.drop ("最高".length - 1) (['高'] : List Char) = [] := by decide
    have hd2 : List.drop ("最高".length - 1) (['高', '最', '高'] : List Char) =
        ['最', '高'] := by decide
    simp +decide [SENTIMENT_PATTERNS, countOccs, hd1, hd2]
  unfold analyze_sentiment
  rw [if_neg (by decide)]
  dsimp only
  rw [hwc]
  simp +decide [SENTIMENT_PATTERNS, List.foldl_cons, List.foldl_nil, List.lookup]
  rw [show (1.0 : ℝ) = 1 by norm_num, one_mul]
  rw [show (1.5 : ℝ) = 3/2 by norm_num, show (2 * 1.2 : ℝ) = 12/5 by norm_num]
  exact pyRound3R_twelve_fifths

/-- Counterexample for claim C6: the sentiment of `"最高"` is not 1.5 and
that of `"最高最高"` is not 2.25, because the configured weight of the
`最高` rule is 1.2, making the contributions `1.5 ** 1.2` and `1.5 ** 2.4`. -/
theorem c6_counterexample_saikou_values :
    analyze_sentiment "最高" ≠ 1.5 ∧ analyze_sentiment "最高最高" ≠ 2.25 := by
  constructor
  · rw [analyze_sentiment_saikou]
    norm_num
  · rw [analyze_sentiment_saikou_double]
    norm_num

/-- Claim C6 (amended): `analyze_sentiment("") = 1.0`;
`analyze_sentiment("最高") = round(1.5 ** (1·1.2), 3) = 1.627`; and
`analyze_sentiment("最高最高") = round(1.5 ** (2·1.2), 3) = 2.646` — the
`最高` rule's configured weight is 1.2, not the default 1.0 the claim's
values assume. -/
theorem c6_sentiment_values :
    analyze_sentiment "" = 1 ∧
    analyze_sentiment "最高" = 1627/1000 ∧
    analyze_sentiment "最高最高" = 1323/500 :=
  ⟨by simp [analyze_sentiment]; norm_num, analyze_sentiment_saikou,
   analyze_sentiment_saikou_double⟩

/-! ### C3: idempotence of `preprocess_text` -/

theorem lookup_mem {l : List (Char × Char)} {a b : Char}
    (h : l.lookup a = some b) : (a, b) ∈ l := by
  induction l with
  | nil => simp [List.lookup] at h
  | cons p t ih =>
    obtain ⟨k, v⟩ := p
    simp only [List.lookup] at h
    cases hk : (a == k) with
    | true =>
      rw [hk] at h
      simp only [Option.some.injEq] at h
      have hak : a = k := by simpa using hk
      subst hak
      subst h
      exact List.mem_cons_self _ _
    | false =>
      rw [hk] at h
      exact List.mem_cons_of_mem _ (ih h)

theorem noDouble_tail (p : Char → Bool) (a : Char) (l : List Char)
    (h : noDouble p (a :: l) = true) : noDouble p l = true := by
  cases l with
  | nil => rfl
  | cons b t =>
    have h1 : (!(p a && p b) && noDouble p (b :: t)) = true := h
    rw [Bool.and_eq_true] at h1
    exact h1.2

theorem noDouble_head (p : Char → Bool) (a : Char) (l : List Char)
    (h : noDouble p (a :: l) = true) :
    ∀ c, l.head? = some c → (p a && p c) = false := by
  cases l with
  | nil => intro c hc; simp at hc
  | cons b t =>
    intro c hc
    simp only [List.head?_cons, Option.some.injEq] at hc
    subst hc
    have h1 : (!(p a && p b) && noDouble p (b :: t)) = true := h
    rw [Bool.and_eq_true] at h1
    have h2 := h1.1
    rw [Bool.not_eq_true'] at h2
    exact h2

theorem noDouble_cons_of (p : Char → Bool) (a : Char) (l : List Char)
    (h1 : noDouble p l = true)
    (h2 : ∀ e, l.head? = some e → (p a && p e) = false) :
    noDouble p (a :: l) = true := by
  cases l with
  | nil => rfl
  | cons b t =>
    have hb := h2 b rfl
    show (!(p a && p b) && noDouble p (b :: t)) = true
    rw [hb, h1]
    rfl

theorem noDouble_dropWhile (p f : Char → Bool) (l : List Char)
    (h : noDouble p l = true) : noDouble p (l.dropWhile f) = true := by
  induction l with
  | nil => simpa using h
  | cons a t ih =>
    rw [List.dropWhile_cons]
    split
    · exact ih (noDouble_tail p a t h)
    · exact h

theorem noDouble_iff_chain (p : Char → Bool) (l : List Char) :
    noDouble p l = true ↔ l.Chain' (fun a b => (p a && p b) = false) := by
  induction l with
  | nil => simp [noDouble]
  | cons a t ih =>
    cases t with
    | nil => simp [noDouble]
    | cons b t2 =>
      rw [List.chain'_cons, ← ih]
      show (!(p a && p b) && noDouble p (b :: t2)) = true ↔ _
      rw [Bool.and_eq_true, Bool.not_eq_true']

theorem noDouble_reverse (p : Char → Bool) (l : List Char)
    (h : noDouble p l = true) : noDouble p l.reverse = true := by
  rw [noDouble_iff_chain] at h ⊢
  rw [List.chain'_reverse]
  exact List.Chain'.imp
    (fun a b hab => show (p b && p a) = false by rwa [Bool.and_comm]) h


theorem mem_pyStrip {c : Char} {l : List Char} (h : c ∈ pyStrip l) : c ∈ l := by
  unfold pyStrip stripLeft at h
  rw [List.mem_reverse] at h
  have h2 := (List.dropWhile_sublist pyIsSpace).subset h
  rw [List.mem_reverse] at h2
  exact (List.dropWhile_sublist pyIsSpace).subset h2

theorem noDouble_pyStrip (p : Char → Bool) (l : List Char)
    (h : noDouble p l = true) : noDouble p (pyStrip l) = true := by
  unfold pyStrip stripLeft
  exact noDouble_reverse p _ (noDouble_dropWhile p _ _
    (noDouble_reverse p _ (noDouble_dropWhile p _ _ h)))

theorem dropWhile_head_false (f : Char → Bool) (l : List Char) :
    ∀ c, (l.dropWhile f).head? = some c → f c = false := by
  induction l with
  | nil => intro c h; simp at h
  | cons a t ih =>
    intro c h
    by_cases hfa : f a
    · rw [List.dropWhile_cons, if_pos hfa] at h
      exact ih c h
    · rw [List.dropWhile_cons, if_neg hfa] at h
      simp only [List.head?_cons, Option.some.injEq] at h
      subst h
      simpa using hfa

theorem dropWhile_noop (f : Char → Bool) (l : List Char)
    (h : ∀ c, l.head? = some c → f c = false) : l.dropWhile f = l := by
  cases l with
  | nil => rfl
  | cons a t =>
    rw [List.dropWhile_cons, if_neg]
    simp [h a rfl]

theorem pyStrip_noop (l : List Char)
    (h1 : ∀ c, l.head? = some c → pyIsSpace c = false)
    (h2 : ∀ c, l.getLast? = some c → pyIsSpace c = false) :
    pyStrip l = l := by
  unfold pyStrip stripLeft
  rw [dropWhile_noop _ _ h1,
    dropWhile_noop pyIsSpace l.reverse
      (fun c hc => h2 c (by rwa [List.head?_reverse] at hc)),
    List.reverse_reverse]

theorem pyStrip_head (l : List Char) :
    ∀ c, (pyStrip l).head? = some c → pyIsSpace c = false := by
  intro c h
  obtain ⟨t, ht⟩ : (stripLeft l).reverse.dropWhile pyIsSpace <:+ (stripLeft l).reverse :=
    List.dropWhile_suffix _
  have hm : stripLeft l = pyStrip l ++ t.reverse := by
    unfold pyStrip
    rw [← List.reverse_append, ht, List.reverse_reverse]
  have hh : (stripLeft l).head? = some c := by
    rw [hm, List.head?_append, h]
    rfl
  exact dropWhile_head_false pyIsSpace l c hh

theorem pyStrip_last (l : List Char) :
    ∀ c, (pyStrip l).getLast? = some c → pyIsSpace c = false := by
  intro c h
  unfold pyStrip at h
  rw [List.getLast?_reverse] at h
  exact dropWhile_head_false pyIsSpace _ c h

theorem pyStrip_idem (l : List Char) : pyStrip (pyStrip l) = pyStrip l :=
  pyStrip_noop _ (pyStrip_head l) (pyStrip_last l)


theorem wsAux_cons_sp_run (a : Char) (t : List Char) (ha : pyIsSpace a = true) :
    wsCollapseAux true (a :: t) = wsCollapseAux true t := by
  simp [wsCollapseAux, ha]

theorem wsAux_cons_sp_new (a : Char) (t : List Char) (ha : pyIsSpace a = true) :
    wsCollapseAux false (a :: t) = ' ' :: wsCollapseAux true t := by
  simp [wsCollapseAux, ha]

theorem wsAux_cons_nsp (a : Char) (t : List Char) (b : Bool)
    (ha : pyIsSpace a = false) :
    wsCollapseAux b (a :: t) = a :: wsCollapseAux false t := by
  simp [wsCollapseAux, ha]

theorem wsCollapseAux_space (b : Bool) (l : List Char) :
    ∀ c ∈ wsCollapseAux b l, pyIsSpace c = true → c = ' ' := by
  induction l generalizing b with
  | nil => simp [wsCollapseAux]
  | cons a t ih =>
    intro c hc hsp
    by_cases ha : pyIsSpace a
    · cases b with
      | true =>
        rw [wsAux_cons_sp_run a t ha] at hc
        exact ih true c hc hsp
      | false =>
        rw [wsAux_cons_sp_new a t ha] at hc
        rcases List.mem_cons.mp hc with h | h
        · exact h
        · exact ih true c h hsp
    · have ha2 : pyIsSpace a = false := by simpa using ha
      rw [wsAux_cons_nsp a t b ha2] at hc
      rcases List.mem_cons.mp hc with h | h
      · subst h; exact absurd hsp (by simp [ha2])
      · exact ih false c h hsp

theorem wsCollapseAux_noop : ∀ l : List Char,
    (∀ c ∈ l, pyIsSpace c = true → c = ' ') →
    noDouble pyIsSpace l = true →
    wsCollapseAux false l = l ∧
      ((∀ c, l.head? = some c → pyIsSpace c = false) →
        wsCollapseAux true l = l) := by
  intro l
  induction l with
  | nil => intro _ _; exact ⟨rfl, fun _ => rfl⟩
  | cons a t ih =>
    intro hsp hnd
    have hsp2 : ∀ c ∈ t, pyIsSpace c = true → c = ' ' :=
      fun c hc => hsp c (List.mem_cons_of_mem _ hc)
    have hnd2 := noDouble_tail pyIsSpace a t hnd
    obtain ⟨ih1, ih2⟩ := ih hsp2 hnd2
    by_cases ha : pyIsSpace a
    · have ha1 : a = ' ' := hsp a (List.mem_cons_self a t) ha
      have hhd : ∀ c, t.head? = some c → pyIsSpace c = false := by
        intro c hc
        have h3 := noDouble_head pyIsSpace a t hnd c hc
        simpa [ha] using h3
      constructor
      · rw [wsAux_cons_sp_new a t ha, ih2 hhd, ha1]
      · intro hh
        exact absurd ha (by simpa using hh a rfl)
    · have ha2 : pyIsSpace a = false := by simpa using ha
      constructor
      · rw [wsAux_cons_nsp a t false ha2, ih1]
      · intro _
        rw [wsAux_cons_nsp a t true ha2, ih1]


theorem collapseAux_cons_pos_run (p : Char → Bool) (r a : Char)
    (t : List Char) (ha : p a = true) :
    collapseRunsAux p r true (a :: t) = collapseRunsAux p r true t := by
  simp [collapseRunsAux, ha]

theorem collapseAux_cons_pos_two (p : Char → Bool) (r a : Char)
    (t : List Char) (ha : p a = true)
    (hl : (t.head?.map p).getD false = true) :
    collapseRunsAux p r false (a :: t) = r :: collapseRunsAux p r true t := by
  simp [collapseRunsAux, ha, hl]

theorem collapseAux_cons_pos_single (p : Char → Bool) (r a : Char)
    (t : List Char) (ha : p a = true)
    (hl : (t.head?.map p).getD false = false) :
    collapseRunsAux p r false (a :: t) = a :: collapseRunsAux p r false t := by
  simp [collapseRunsAux, ha, hl]

theorem collapseAux_cons_neg (p : Char → Bool) (r a : Char)
    (t : List Char) (b : Bool) (ha : p a = false) :
    collapseRunsAux p r b (a :: t) = a :: collapseRunsAux p r false t := by
  simp [collapseRunsAux, ha]

theorem collapseRunsAux_mem (p : Char → Bool) (r : Char) (l : List Char) :
    ∀ (b : Bool) (c : Char), c ∈ collapseRunsAux p r b l → c ∈ l ∨ c = r := by
  induction l with
  | nil => intro b c hc; simp [collapseRunsAux] at hc
  | cons a t ih =>
    intro b c hc
    by_cases ha : p a = true
    · cases b with
      | true =>
        rw [collapseAux_cons_pos_run p r a t ha] at hc
        rcases ih true c hc with h | h
        · exact Or.inl (List.mem_cons_of_mem _ h)
        · exact Or.inr h
      | false =>
        cases hl : (t.head?.map p).getD false with
        | true =>
          rw [collapseAux_cons_pos_two p r a t ha hl] at hc
          rcases List.mem_cons.mp hc with h | h
          · exact Or.inr h
          · rcases ih true c h with h2 | h2
            · exact Or.inl (List.mem_cons_of_mem _ h2)
            · exact Or.inr h2
        | false =>
          rw [collapseAux_cons_pos_single p r a t ha hl] at hc
          rcases List.mem_cons.mp hc with h | h
          · exact Or.inl (h ▸ List.mem_cons_self a t)
          · rcases ih false c h with h2 | h2
            · exact Or.inl (List.mem_cons_of_mem _ h2)
            · exact Or.inr h2
    · have ha2 : p a = false := by simpa using ha
      rw [collapseAux_cons_neg p r a t b ha2] at hc
      rcases List.mem_cons.mp hc with h | h
      · exact Or.inl (h ▸ List.mem_cons_self a t)
      · rcases ih false c h with h2 | h2
        · exact Or.inl (List.mem_cons_of_mem _ h2)
        · exact Or.inr h2

theorem collapseAux_head_false (p : Char → Bool) (r : Char) (l : List Char) :
    ∀ c, l.head? = some c → p c = false →
      (collapseRunsAux p r false l).head? = some c := by
  intro c hc hpc
  cases l with
  | nil => simp at hc
  | cons a t =>
    simp only [List.head?_cons, Option.some.injEq] at hc
    subst hc
    rw [collapseAux_cons_neg p r a t false hpc]
    rfl

theorem collapseAux_head_cases (p : Char → Bool) (r : Char) (l : List Char) :
    ∀ d, (collapseRunsAux p r false l).head? = some d →
      d = r ∨ l.head? = some d := by
  intro d hd
  cases l with
  | nil => simp [collapseRunsAux] at hd
  | cons a t =>
    by_cases ha : p a = true
    · cases hl : (t.head?.map p).getD false with
      | true =>
        rw [collapseAux_cons_pos_two p r a t ha hl] at hd
        simp only [List.head?_cons, Option.some.injEq] at hd
        exact Or.inl hd.symm
      | false =>
        rw [collapseAux_cons_pos_single p r a t ha hl] at hd
        simp only [List.head?_cons, Option.some.injEq] at hd
        exact Or.inr (by simp [hd])
    · have ha2 : p a = false := by simpa using ha
      rw [collapseAux_cons_neg p r a t false ha2] at hd
      simp only [List.head?_cons, Option.some.injEq] at hd
      exact Or.inr (by simp [hd])

theorem collapseAux_head_run (p : Char → Bool) (r : Char) (l : List Char) :
    ∀ d, (collapseRunsAux p r true l).head? = some d → p d = false := by
  induction l with
  | nil => intro d hd; simp [collapseRunsAux] at hd
  | cons a t ih =>
    intro d hd
    by_cases ha : p a = true
    · rw [collapseAux_cons_pos_run p r a t ha] at hd
      exact ih d hd
    · have ha2 : p a = false := by simpa using ha
      rw [collapseAux_cons_neg p r a t true ha2] at hd
      simp only [List.head?_cons, Option.some.injEq] at hd
      subst hd
      exact ha2


theorem collapseAux_noDouble_self (p : Char → Bool) (r : Char) (l : List Char) :
    ∀ b, noDouble p (collapseRunsAux p r b l) = true := by
  induction l with
  | nil => intro b; rfl
  | cons a t ih =>
    intro b
    by_cases ha : p a = true
    · cases b with
      | true =>
        rw [collapseAux_cons_pos_run p r a t ha]
        exact ih true
      | false =>
        cases hl : (t.head?.map p).getD false with
        | true =>
          rw [collapseAux_cons_pos_two p r a t ha hl]
          apply noDouble_cons_of
          · exact ih true
          · intro e he
            have h2 := collapseAux_head_run p r t e he
            simp [h2]
        | false =>
          rw [collapseAux_cons_pos_single p r a t ha hl]
          apply noDouble_cons_of
          · exact ih false
          · intro e he
            cases t with
            | nil => simp [collapseRunsAux] at he
            | cons d t2 =>
              have hd : p d = false := by simpa using hl
              have h3 := collapseAux_head_false p r (d :: t2) d rfl hd
              rw [h3] at he
              injection he with h4
              subst h4
              simp [hd]
    · have ha2 : p a = false := by simpa using ha
      rw [collapseAux_cons_neg p r a t b ha2]
      apply noDouble_cons_of
      · exact ih false
      · intro e he
        simp [ha2]

theorem collapseAux_preserves_noDouble (p q : Char → Bool) (r : Char)
    (hr : q r = false) (l : List Char) :
    ∀ b, noDouble q l = true →
      noDouble q (collapseRunsAux p r b l) = true := by
  induction l with
  | nil => intro b _; rfl
  | cons a t ih =>
    intro b hq
    have hq2 := noDouble_tail q a t hq
    by_cases ha : p a = true
    · cases b with
      | true =>
        rw [collapseAux_cons_pos_run p r a t ha]
        exact ih true hq2
      | false =>
        cases hl : (t.head?.map p).getD false with
        | true =>
          rw [collapseAux_cons_pos_two p r a t ha hl]
          apply noDouble_cons_of
          · exact ih true hq2
          · intro e he
            simp [hr]
        | false =>
          rw [collapseAux_cons_pos_single p r a t ha hl]
          apply noDouble_cons_of
          · exact ih false hq2
          · intro e he
            rcases collapseAux_head_cases p r t e he with h | h
            · subst h; simp [hr]
            · exact noDouble_head q a t hq e h
    · have ha2 : p a = false := by simpa using ha
      rw [collapseAux_cons_neg p r a t b ha2]
      apply noDouble_cons_of
      · exact ih false hq2
      · intro e he
        rcases collapseAux_head_cases p r t e he with h | h
        · subst h; simp [hr]
        · exact noDouble_head q a t hq e h

theorem collapseAux_noop (p : Char → Bool) (r : Char) :
    ∀ l : List Char, noDouble p l = true → collapseRunsAux p r false l = l := by
  intro l
  induction l with
  | nil => intro _; rfl
  | cons a t ih =>
    intro h
    have h2 := noDouble_tail p a t h
    by_cases ha : p a = true
    · have hl : (t.head?.map p).getD false = false := by
        cases t with
        | nil => rfl
        | cons d t2 =>
          have h3 := noDouble_head p a (d :: t2) h d rfl
          rw [ha] at h3
          simpa using h3
      rw [collapseAux_cons_pos_single p r a t ha hl, ih h2]
    · have ha2 : p a = false := by simpa using ha
      rw [collapseAux_cons_neg p r a t false ha2, ih h2]

theorem map_id_of (f : Char → Char) (l : List Char)
    (h : ∀ c ∈ l, f c = c) : l.map f = l := by
  induction l with
  | nil => rfl
  | cons a t ih =>
    rw [List.map_cons, h a (List.mem_cons_self a t),
      ih (fun c hc => h c (List.mem_cons_of_mem _ hc))]


theorem tr1Pairs_image_props :
    ∀ pp ∈ tr1Pairs, pyIsSpace pp.2 = false ∧ tr1Pairs.lookup pp.2 = none ∧
      tr2Pairs.lookup pp.2 = none ∧ isCtrl pp.2 = false := by decide

theorem tr2Pairs_image_props :
    ∀ pp ∈ tr2Pairs, pyIsSpace pp.2 = false ∧ tr1Pairs.lookup pp.2 = none ∧
      tr2Pairs.lookup pp.2 = none ∧ isCtrl pp.2 = false := by decide

theorem maru_props :
    pyIsSpace '。' = false ∧ tr1Pairs.lookup '。' = none ∧
      tr2Pairs.lookup '。' = none ∧ isCtrl '。' = false := by decide

theorem ten_props :
    pyIsSpace '、' = false ∧ tr1Pairs.lookup '、' = none ∧
      isCtrl '、' = false ∧ isPeriodMark '、' = false := by decide


theorem preprocess_invariants (x : String) :
    (∀ c ∈ (preprocess_text x).data, pyIsSpace c = true → c = ' ') ∧
    (∀ c ∈ (preprocess_text x).data, tr1Pairs.lookup c = none) ∧
    (∀ c ∈ (preprocess_text x).data, c = '、' ∨ tr2Pairs.lookup c = none) ∧
    (∀ c ∈ (preprocess_text x).data, isCtrl c = false) ∧
    noDouble isPeriodMark (preprocess_text x).data = true ∧
    noDouble isCommaMark (preprocess_text x).data = true ∧
    pyStrip (preprocess_text x).data = (preprocess_text x).data := by
  by_cases hx : x = ""
  · subst hx
    refine ⟨?_, ?_, ?_, ?_, ?_, ?_, ?_⟩ <;>
      simp [preprocess_text, noDouble, pyStrip, stripLeft]
  · set m0 : List Char := pyStrip x.data with hm0
    set m1 : List Char := wsCollapse m0 with hm1
    set m2 : List Char := m1.map tr1Char with hm2
    set m3 : List Char := m2.map tr2Char with hm3
    set m4 : List Char := m3.filter (fun c => ¬ isCtrl c) with hm4
    set m5 : List Char := collapseRuns isPeriodMark '。' m4 with hm5
    set m6 : List Char := collapseRuns isCommaMark '、' m5 with hm6
    have hdata : (preprocess_text x).data = pyStrip m6 := by
      simp only [preprocess_text, if_neg hx]
    have p1sp : ∀ c ∈ m1, pyIsSpace c = true → c = ' ' := wsCollapseAux_space false m0
    have p2 : ∀ c ∈ m2, (pyIsSpace c = true → c = ' ') ∧
        tr1Pairs.lookup c = none := by
      intro c hc
      rw [hm2] at hc
      rcases List.mem_map.mp hc with ⟨c0, hc0, hce⟩
      rw [← hce]
      unfold tr1Char
      cases hlk : tr1Pairs.lookup c0 with
      | none =>
        simp only [Option.getD_none]
        exact ⟨p1sp c0 hc0, hlk⟩
      | some d =>
        have hf := tr1Pairs_image_props (c0, d) (lookup_mem hlk)
        simp only [Option.getD_some]
        exact ⟨fun hsp => absurd hsp (by simp [hf.1]), hf.2.1⟩
    have p3 : ∀ c ∈ m3, (pyIsSpace c = true → c = ' ') ∧
        tr1Pairs.lookup c = none ∧ tr2Pairs.lookup c = none := by
      intro c hc
      rw [hm3] at hc
      rcases List.mem_map.mp hc with ⟨c0, hc0, hce⟩
      rw [← hce]
      unfold tr2Char
      cases hlk : tr2Pairs.lookup c0 with
      | none =>
        simp only [Option.getD_none]
        exact ⟨(p2 c0 hc0).1, (p2 c0 hc0).2, hlk⟩
      | some d =>
        have hf := tr2Pairs_image_props (c0, d) (lookup_mem hlk)
        simp only [Option.getD_some]
        exact ⟨fun hsp => absurd hsp (by simp [hf.1]), hf.2.1, hf.2.2.1⟩
    have p4 : ∀ c ∈ m4, (pyIsSpace c = true → c = ' ') ∧
        tr1Pairs.lookup c = none ∧ tr2Pairs.lookup c = none ∧
        isCtrl c = false := by
      intro c hc
      rw [hm4] at hc
      have hmem := List.mem_of_mem_filter hc
      have hctr : isCtrl c = false := by simpa using List.of_mem_filter hc
      exact ⟨(p3 c hmem).1, (p3 c hmem).2.1, (p3 c hmem).2.2, hctr⟩
    have p5 : ∀ c ∈ m5, (pyIsSpace c = true → c = ' ') ∧
        tr1Pairs.lookup c = none ∧ tr2Pairs.lookup c = none ∧
        isCtrl c = false := by
      intro c hc
      rcases collapseRunsAux_mem isPeriodMark '。' m4 false c hc with h | h
      · exact p4 c h
      · subst h
        exact ⟨fun hsp => absurd hsp (by simp [maru_props.1]),
          maru_props.2.1, maru_props.2.2.1, maru_props.2.2.2⟩
    have p5nd : noDouble isPeriodMark m5 = true :=
      collapseAux_noDouble_self isPeriodMark '。' m4 false
    have p6 : ∀ c ∈ m6, (pyIsSpace c = true → c = ' ') ∧
        tr1Pairs.lookup c = none ∧ (c = '、' ∨ tr2Pairs.lookup c = none) ∧
        isCtrl c = false := by
      intro c hc
      rcases collapseRunsAux_mem isCommaMark '、' m5 false c hc with h | h
      · exact ⟨(p5 c h).1, (p5 c h).2.1, Or.inr (p5 c h).2.2.1, (p5 c h).2.2.2⟩
      · subst h
        exact ⟨fun hsp => absurd hsp (by simp [ten_props.1]),
          ten_props.2.1, Or.inl rfl, ten_props.2.2.1⟩
    have p6ndP : noDouble isPeriodMark m6 = true :=
      collapseAux_preserves_noDouble isCommaMark isPeriodMark '、'
        ten_props.2.2.2 m5 false p5nd
    have p6ndC : noDouble isCommaMark m6 = true :=
      collapseAux_noDouble_self isCommaMark '、' m5 false
    rw [hdata]
    refine ⟨?_, ?_, ?_, ?_, ?_, ?_, ?_⟩
    · intro c hc; exact (p6 c (mem_pyStrip hc)).1
    · intro c hc; exact (p6 c (mem_pyStrip hc)).2.1
    · intro c hc; exact (p6 c (mem_pyStrip hc)).2.2.1
    · intro c hc; exact (p6 c (mem_pyStrip hc)).2.2.2
    · exact noDouble_pyStrip _ _ p6ndP
    · exact noDouble_pyStrip _ _ p6ndC
    · exact pyStrip_idem m6


theorem preprocess_eq_of (s : String) (hs : ¬ s = "")
    (e1 : wsCollapse (pyStrip s.data) = s.data)
    (e2 : s.data.map tr1Char = s.data)
    (e3 : s.data.map tr2Char = s.data)
    (e4 : s.data.filter (fun c => ¬ isCtrl c) = s.data)
    (e5 : collapseRuns isPeriodMark '。' s.data = s.data)
    (e6 : collapseRuns isCommaMark '、' s.data = s.data)
    (e7 : pyStrip s.data = s.data) :
    preprocess_text s = s := by
  simp only [preprocess_text, if_neg hs]
  rw [e1, e2, e3, e4, e5, e6, e7]

/-- Claim C3 (counterexample): normalization is not idempotent.  For
`",,"` the comma-run collapse yields `"、"`, whose second normalization
maps `、` to `","` through the second `translate` table; for
`"a \x00 b"` removing the control character creates a double space that
only the second normalization collapses. -/
theorem c3_counterexample_not_idempotent :
    preprocess_text (preprocess_text ",,") ≠ preprocess_text ",," ∧
    preprocess_text (preprocess_text "a \x00 b") ≠ preprocess_text "a \x00 b" := by
  decide

/-- Claim C3 (amended): normalization is idempotent on every input whose
normalized form contains no `、` (the replacement character of the comma-run
collapse, which the second `translate` table would turn into `,`) and no two
adjacent whitespace characters (which control-character removal can create
and a second whitespace collapse would merge). -/
theorem c3_normalize_idempotent_cond (x : String)
    (h1 : '、' ∉ (preprocess_text x).data)
    (h2 : noDouble pyIsSpace (preprocess_text x).data = true) :
    preprocess_text (preprocess_text x) = preprocess_text x := by
  obtain ⟨pA, pB, pC, pD, pE, pF, pG⟩ := preprocess_invariants x
  by_cases hy : preprocess_text x = ""
  · rw [hy]
    decide
  · apply preprocess_eq_of _ hy
    · rw [pG]
      exact (wsCollapseAux_noop _ pA h2).1
    · apply map_id_of
      intro c hc
      unfold tr1Char
      rw [pB c hc]
      rfl
    · apply map_id_of
      intro c hc
      rcases pC c hc with h | h
      · exact absurd (h ▸ hc) h1
      · unfold tr2Char
        rw [h]
        rfl
    · rw [List.filter_eq_self]
      intro c hc
      simp [pD c hc]
    · exact collapseAux_noop isPeriodMark '。' _ pE
    · exact collapseAux_noop isCommaMark '、' _ pF
    · exact pG

theorem c3_normalize_idempotent_cond_witness :
    ('、' ∉ (preprocess_text "Hello,  world.").data ∧
      noDouble pyIsSpace (preprocess_text "Hello,  world.").data = true) ∧
    preprocess_text (preprocess_text "Hello,  world.") =
      preprocess_text "Hello,  world." :=
  ⟨⟨by decide, by decide⟩,
    c3_normalize_idempotent_cond "Hello,  world." (by decide) (by decide)⟩

end TrendAnalysis
